import Mathlib

/-!
# Enchanted Graphics Engine: frame lifecycle of `EnchantedEngine`

A shallow embedding of `src/ege_engine.cpp`.  Every member function of
`EnchantedEngine` becomes a function from an engine state to an engine state
and an `Outcome`.  Calls that leave the translation unit (Vulkan, GLFW, the
swap chain, the pipeline, the model, the window) append an `Event` to the
trace of the state; what they answer is read from an `Env`, indexed by how
many calls of that kind came before.  The push-constant values are computed
in binary32, each literal and operation rounded to nearest; the other `float`
values that occur (clear values, depth range, viewport size) are whole
numbers and are held as rationals.
-/

namespace ege

/-! ## Values shared with the Vulkan headers -/

/-- Status codes are the integers of the `VkResult` enumeration. -/
abbrev VkResult := Int

/-- The value of `VK_SUCCESS` in `vulkan_core.h`. -/
def VK_SUCCESS : VkResult := 0

/-- The value of `VK_SUBOPTIMAL_KHR` in `vulkan_core.h`. -/
def VK_SUBOPTIMAL_KHR : VkResult := 1000001003

/-- The value of `VK_ERROR_OUT_OF_DATE_KHR` in `vulkan_core.h`. -/
def VK_ERROR_OUT_OF_DATE_KHR : VkResult := -1000001004

/-- The value of `VK_ERROR_DEVICE_LOST` in `vulkan_core.h`, one of the fatal codes. -/
def VK_ERROR_DEVICE_LOST : VkResult := -4

/-- The value of `VK_SHADER_STAGE_VERTEX_BIT`. -/
def VK_SHADER_STAGE_VERTEX_BIT : Nat := 1

/-- The value of `VK_SHADER_STAGE_FRAGMENT_BIT`. -/
def VK_SHADER_STAGE_FRAGMENT_BIT : Nat := 16

/-- A width and a height, both `uint32_t`. -/
structure VkExtent2D where
  width : Nat
  height : Nat
  deriving DecidableEq, Repr

/-- The block pushed before every draw: `glm::vec2 offset; alignas(16) glm::vec3 color`. -/
structure SimplePushConstantData where
  offset : ℚ × ℚ
  color : ℚ × ℚ × ℚ
  deriving DecidableEq

/-- The value of `sizeof(SimplePushConstantData)`: eight bytes of offset, eight of
padding up to the 16-byte alignment of `color`, twelve of colour, four of tail padding. -/
def sizeofSimplePushConstantData : Nat := 32

/-- One `VkPushConstantRange`. -/
structure VkPushConstantRange where
  stageFlags : Nat
  offset : Nat
  size : Nat
  deriving DecidableEq, Repr

/-- The fields of `VkPipelineLayoutCreateInfo` that `createPipelineLayout` sets. -/
structure VkPipelineLayoutCreateInfo where
  setLayoutCount : Nat
  pushConstantRangeCount : Nat
  pPushConstantRanges : List VkPushConstantRange
  deriving DecidableEq, Repr

/-- The ranges a layout declares: the first `pushConstantRangeCount` entries of the
array `pPushConstantRanges` points to, which is all Vulkan reads of it. -/
def VkPipelineLayoutCreateInfo.declaredRanges (info : VkPipelineLayoutCreateInfo) :
    List VkPushConstantRange :=
  info.pPushConstantRanges.take info.pushConstantRangeCount

/-- A pipeline layout handle together with what it was created from. -/
structure PipelineLayout where
  handle : Nat
  info : VkPipelineLayoutCreateInfo
  deriving DecidableEq, Repr

/-- A range covers an upload when it names all the stages of the upload and
contains its bytes. -/
def VkPushConstantRange.covers (r : VkPushConstantRange) (stages offset size : Nat) : Bool :=
  (stages &&& r.stageFlags == stages) && decide (r.offset ≤ offset) &&
    decide (offset + size ≤ r.offset + r.size)

/-! ## Collaborators outside the translation unit -/

/-- Modelled from the spec: `EgeSwapChain` (PresentableSurfaceChain, section 4.1), whose
class is not among the sources.  A chain is built for a window extent, optionally from
a retiring predecessor; the presentation engine chooses its image count and its own
extent. -/
structure EgeSwapChain where
  id : Nat
  windowExtent : VkExtent2D
  previous : Option Nat
  images : Nat
  swapChainExtent : VkExtent2D
  deriving DecidableEq, Repr

/-- The accessor `imageCount()`. -/
def EgeSwapChain.imageCount (c : EgeSwapChain) : Nat := c.images

/-- The accessor `getSwapChainExtent()`. -/
def EgeSwapChain.getSwapChainExtent (c : EgeSwapChain) : VkExtent2D := c.swapChainExtent

/-- The accessor `getRenderPass()`: the render pass of a chain is named by the chain. -/
def EgeSwapChain.getRenderPass (c : EgeSwapChain) : Nat := c.id

/-- The accessor `getFrameBuffer(index)`: a frame buffer is named by its chain and index. -/
def EgeSwapChain.getFrameBuffer (c : EgeSwapChain) (index : Nat) : Nat × Nat := (c.id, index)

/-- Modelled from the spec: `EgePipeline` (RenderPipeline, section 4.2), whose class is not
among the sources: built against one render pass and one pipeline layout. -/
structure EgePipeline where
  id : Nat
  renderPass : Nat
  pipelineLayout : Nat
  deriving DecidableEq, Repr

/-- A vertex as `generateSierpinski` uses it: a position and a colour. -/
structure Vertex where
  position : ℚ × ℚ
  color : ℚ × ℚ × ℚ
  deriving DecidableEq

/-- Modelled from the spec: `EgeModel` (DrawableModel), whose class is not among the
sources: the vertices it was constructed from. -/
structure EgeModel where
  vertices : List Vertex
  deriving DecidableEq

/-- What one chain construction answers: the image count and extent the presentation
engine chose. -/
structure ChainChoice where
  images : Nat
  swapChainExtent : VkExtent2D
  deriving DecidableEq, Repr

/-- The answers of everything outside the engine, each indexed by the number of
earlier calls of the same kind. -/
structure Env where
  /-- Successive reads of `egeWindow.getExtent()`. -/
  extent : Nat → VkExtent2D
  /-- Successive `EgeSwapChain` constructions; `none` is a constructor that throws. -/
  chain : Nat → Option ChainChoice
  /-- Successive `EgePipeline` constructions; `false` is a constructor that throws. -/
  pipeline : Nat → Bool
  /-- The status of `vkCreatePipelineLayout`. -/
  layout : Nat → VkResult
  /-- Successive statuses of `vkAllocateCommandBuffers`. -/
  alloc : Nat → VkResult
  /-- Successive answers of `acquireNextImage`: a status and the index written. -/
  acquire : Nat → VkResult × Nat
  /-- Successive statuses of `submitCommandBuffers`. -/
  submit : Nat → VkResult
  /-- Successive statuses of `vkBeginCommandBuffer`. -/
  beginCB : Nat → VkResult
  /-- Successive statuses of `vkEndCommandBuffer`. -/
  endCB : Nat → VkResult
  /-- Successive answers of `egeWindow.shouldClose()`. -/
  shouldClose : Nat → Bool
  /-- Whether the n-th event pump (`glfwPollEvents`, `glfwWaitEvents`) delivers a resize. -/
  resize : Nat → Bool

/-! ## Traces -/

/-- The member functions whose entry is recorded in the trace. -/
inductive Fn
  | loadModels
  | createPipelineLayout
  | createPipeline
  | recreateSwapChain
  | freeCommandBuffers
  | createCommandBuffers
  | recordCommandBuffer (imageIndex : Nat)
  | drawFrame
  | run
  deriving DecidableEq, Repr

/-- A call recorded into a command buffer. -/
inductive Cmd
  | vkBeginCommandBuffer
  | vkCmdBeginRenderPass (renderPass : Nat) (framebuffer : Nat × Nat)
      (areaOffset : Int × Int) (areaExtent : VkExtent2D)
      (clearColor : ℚ × ℚ × ℚ × ℚ) (clearDepth : ℚ) (clearStencil : Nat)
  | vkCmdSetViewport (x y width height minDepth maxDepth : ℚ)
  | vkCmdSetScissor (offset : Int × Int) (extent : VkExtent2D)
  | pipelineBind (pipeline : Nat)
  | modelBind
  | vkCmdPushConstants (layout : Nat) (stageFlags offset size : Nat)
      (values : SimplePushConstantData)
  | modelDraw
  | vkCmdEndRenderPass
  | vkEndCommandBuffer
  deriving DecidableEq

/-- One observable step of the engine. -/
inductive Event
  | call (fn : Fn)
  | getExtent (extent : VkExtent2D)
  | glfwWaitEvents
  | glfwPollEvents
  | shouldClose (answer : Bool)
  | vkDeviceWaitIdle
  | newSwapChain (id : Nat) (extent : VkExtent2D) (previous : Option Nat) (built : Bool)
  | vkFreeCommandBuffers (handles : List Nat)
  | vkAllocateCommandBuffers (count : Nat) (result : VkResult)
  | newPipeline (id : Nat) (renderPass : Nat) (pipelineLayout : Nat) (built : Bool)
  | vkCreatePipelineLayout (info : VkPipelineLayoutCreateInfo) (result : VkResult)
  | newModel (vertices : List Vertex)
  | acquireNextImage (chain : Nat) (result : VkResult) (imageIndex : Nat)
  | submitCommandBuffers (chain : Nat) (commandBuffer : Nat) (imageIndex : Nat)
      (result : VkResult)
  | resetWindowResizedFlag
  | cmd (commandBuffer : Nat) (c : Cmd)
  deriving DecidableEq

/-- How a member function ends. -/
inductive Outcome
  /-- The function returned. -/
  | returned
  /-- A `std::runtime_error` (or a constructor failure) left the function. -/
  | threw (what : String)
  /-- The loop bound of the model was used up inside a loop that had not ended. -/
  | stalled
  /-- An `assert` failed, a null pointer was dereferenced or a slot index was out of range. -/
  | fault
  deriving DecidableEq, Repr

/-! ## The engine state -/

/-- The members of `EnchantedEngine`, the static counter of `recordCommandBuffer`, the
resize flag of the window, the trace, and the number of calls made so far to each
outside collaborator. -/
structure EnchantedEngine where
  egeSwapChain : Option EgeSwapChain
  egePipeline : Option EgePipeline
  pipelineLayout : Option PipelineLayout
  commandBuffers : List Nat
  egeModel : Option EgeModel
  /-- The `static int frame` of `recordCommandBuffer`. -/
  frame : Int
  /-- Modelled from the spec: the flag behind `wasWindowResized()` and
  `resetWindowResizedFlag()`, which `ege_window.hpp` does not declare. -/
  framebufferResized : Bool
  trace : List Event
  nExtent : Nat
  nChain : Nat
  nPipeline : Nat
  nLayout : Nat
  nAlloc : Nat
  nAcquire : Nat
  nSubmit : Nat
  nBegin : Nat
  nEnd : Nat
  nClose : Nat
  nPump : Nat
  /-- The next fresh command buffer handle. -/
  nHandle : Nat

/-- The state in which the constructor body starts: no member built, counter at zero. -/
def EnchantedEngine.fresh : EnchantedEngine :=
  { egeSwapChain := none, egePipeline := none, pipelineLayout := none, commandBuffers := [],
    egeModel := none, frame := 0, framebufferResized := false, trace := [],
    nExtent := 0, nChain := 0, nPipeline := 0, nLayout := 0, nAlloc := 0, nAcquire := 0,
    nSubmit := 0, nBegin := 0, nEnd := 0, nClose := 0, nPump := 0, nHandle := 0 }

/-- Append events to the trace. -/
def EnchantedEngine.emit (s : EnchantedEngine) (es : List Event) : EnchantedEngine :=
  { s with trace := s.trace ++ es }

/-- Sequencing: the continuation runs only when the first part returned; a throw, a
stall or a fault leaves the function at once. -/
def andThen (r : EnchantedEngine × Outcome) (k : EnchantedEngine → EnchantedEngine × Outcome) :
    EnchantedEngine × Outcome :=
  match r.2 with
  | .returned => k r.1
  | _ => r

/-- Modelled from the spec: one event pump (`glfwPollEvents` or `glfwWaitEvents`) of the
window collaborator, whose implementation is not among the sources: the resize
callback may set the flag that `wasWindowResized()` reports. -/
def EnchantedEngine.pump (env : Env) (s : EnchantedEngine) (e : Event) : EnchantedEngine :=
  { s.emit [e] with
    nPump := s.nPump + 1
    framebufferResized := s.framebufferResized || env.resize s.nPump }

/-! ## The member functions -/

/-- The three vertices `loadModels` passes to the model. -/
def triangle : List Vertex :=
  [⟨(0, -0.5), (0, 0, 0)⟩, ⟨(0.5, 0.5), (0, 0, 0)⟩, ⟨(-0.5, 0.5), (0, 0, 0)⟩]

/-- The body of `EnchantedEngine::loadModels`. -/
def loadModels (s : EnchantedEngine) : EnchantedEngine × Outcome :=
  ({ s.emit [.call .loadModels, .newModel triangle] with egeModel := some ⟨triangle⟩ },
    .returned)

/-- The body of `EnchantedEngine::createPipelineLayout`: a range is prepared and pointed
to, the range count is set to zero. -/
def createPipelineLayout (env : Env) (s : EnchantedEngine) : EnchantedEngine × Outcome :=
  let pushConstantRange : VkPushConstantRange :=
    { stageFlags := VK_SHADER_STAGE_VERTEX_BIT ||| VK_SHADER_STAGE_FRAGMENT_BIT
      offset := 0
      size := sizeofSimplePushConstantData }
  let pipelineLayoutInfo : VkPipelineLayoutCreateInfo :=
    { setLayoutCount := 0
      pushConstantRangeCount := 0
      pPushConstantRanges := [pushConstantRange] }
  let result := env.layout s.nLayout
  let s1 :=
    { s.emit [.call .createPipelineLayout, .vkCreatePipelineLayout pipelineLayoutInfo result]
      with nLayout := s.nLayout + 1 }
  if result ≠ VK_SUCCESS then (s1, .threw "Failed to Create Pipeline Layout!")
  else ({ s1 with pipelineLayout := some ⟨s.nLayout + 1, pipelineLayoutInfo⟩ }, .returned)

/-- The body of `EnchantedEngine::createPipeline`: two asserts, then a pipeline built
against the render pass of the current chain and the pipeline layout. -/
def createPipeline (env : Env) (s : EnchantedEngine) : EnchantedEngine × Outcome :=
  let s0 := s.emit [.call .createPipeline]
  match s.egeSwapChain, s.pipelineLayout with
  | some chain, some layout =>
    let built := env.pipeline s.nPipeline
    let s1 :=
      { s0.emit [.newPipeline s.nPipeline chain.getRenderPass layout.handle built]
        with nPipeline := s.nPipeline + 1 }
    if built then
      ({ s1 with egePipeline := some ⟨s.nPipeline, chain.getRenderPass, layout.handle⟩ },
        .returned)
    else (s1, .threw "EgePipeline")
  | _, _ => (s0, .fault)

/-- The body of `EnchantedEngine::freeCommandBuffers`. -/
def freeCommandBuffers (s : EnchantedEngine) : EnchantedEngine × Outcome :=
  ({ s.emit [.call .freeCommandBuffers, .vkFreeCommandBuffers s.commandBuffers]
     with commandBuffers := [] }, .returned)

/-- The body of `EnchantedEngine::createCommandBuffers`: the vector is resized to the
image count of the chain and filled with freshly allocated handles. -/
def createCommandBuffers (env : Env) (s : EnchantedEngine) : EnchantedEngine × Outcome :=
  let s0 := s.emit [.call .createCommandBuffers]
  match s.egeSwapChain with
  | none => (s0, .fault)
  | some chain =>
    let count := chain.imageCount
    let resized :=
      s.commandBuffers.take count ++ List.replicate (count - s.commandBuffers.length) 0
    let result := env.alloc s.nAlloc
    let s1 :=
      { s0.emit [.vkAllocateCommandBuffers count result]
        with nAlloc := s.nAlloc + 1, commandBuffers := resized }
    if result ≠ VK_SUCCESS then (s1, .threw "Failed to allocate command buffer!")
    else
      ({ s1 with
         commandBuffers := (List.range count).map (fun i => s.nHandle + 1 + i)
         nHandle := s.nHandle + count }, .returned)

/-- The loop `while (extent.width == 0 || extent.height == 0)` of `recreateSwapChain`:
each turn reads the extent again and then waits for events.  The first argument bounds
the number of turns; `none` reports that the bound was reached with the extent still
degenerate. -/
def stallLoop (env : Env) :
    Nat → EnchantedEngine → VkExtent2D → EnchantedEngine × Option VkExtent2D
  | 0, s, extent =>
    if extent.width = 0 ∨ extent.height = 0 then (s, none) else (s, some extent)
  | fuel + 1, s, extent =>
    if extent.width = 0 ∨ extent.height = 0 then
      let next := env.extent s.nExtent
      let s1 := { s.emit [.getExtent next] with nExtent := s.nExtent + 1 }
      stallLoop env fuel (s1.pump env .glfwWaitEvents) next
    else (s, some extent)

/-- What `recreateSwapChain` does once a usable extent is in hand: device-idle wait,
chain construction (from the retiring chain when there is one), slot reconciliation,
pipeline build. -/
def rebuild (env : Env) (s : EnchantedEngine) (extent : VkExtent2D) :
    EnchantedEngine × Outcome :=
  let s1 := s.emit [.vkDeviceWaitIdle]
  let previous := s.egeSwapChain.map (fun c => c.id)
  match env.chain s.nChain with
  | none =>
    ({ s1.emit [.newSwapChain s.nChain extent previous false] with nChain := s.nChain + 1 },
      .threw "EgeSwapChain")
  | some choice =>
    let chain : EgeSwapChain :=
      { id := s.nChain, windowExtent := extent, previous := previous,
        images := choice.images, swapChainExtent := choice.swapChainExtent }
    let s2 :=
      { s1.emit [.newSwapChain s.nChain extent previous true] with
        nChain := s.nChain + 1, egeSwapChain := some chain }
    match s.egeSwapChain with
    | none => createPipeline env s2
    | some _ =>
      if chain.imageCount ≠ s2.commandBuffers.length then
        andThen (andThen (freeCommandBuffers s2) (createCommandBuffers env)) (createPipeline env)
      else createPipeline env s2

/-- The body of `EnchantedEngine::recreateSwapChain`. -/
def recreateSwapChain (env : Env) (fuel : Nat) (s : EnchantedEngine) :
    EnchantedEngine × Outcome :=
  let extent := env.extent s.nExtent
  let s1 :=
    { s.emit [.call .recreateSwapChain, .getExtent extent] with nExtent := s.nExtent + 1 }
  match stallLoop env fuel s1 extent with
  | (s2, none) => (s2, .stalled)
  | (s2, some extent) => rebuild env s2 extent

/-- The integer nearest to `a / b`, for positive `b`; of two equally near the even one. -/
def roundHalfEven (a b : Nat) : Nat :=
  if 2 * (a % b) < b then a / b
  else if b < 2 * (a % b) then a / b + 1
  else if (a / b) % 2 = 0 then a / b else a / b + 1

/-- The number of binary digits of `n`.  The first argument bounds the recursion; it is
always given as `n` itself, which is never fewer than the digits of `n`. -/
def bitLength : Nat → Nat → Nat
  | 0, _ => 0
  | fuel + 1, n => if n = 0 then 0 else bitLength fuel (n / 2) + 1

/-- The number of units of 2^-149 in 1.  Every finite binary32 value is a whole number of
these units (2^-149 is the smallest positive one), and that number is how a `float` is
held here. -/
def unit149 : Nat := 2 ^ 149

/-- The exponent of the spacing, in units, of the binary32 values around a magnitude of
`n` units and a fraction: below 2^24 units (the subnormals and the first binade of
normal values) neighbours are one unit apart, and a magnitude of `b > 24` binary digits
has 24 significant ones, so neighbours are 2^(b-24) units apart. -/
def spacingExp (n : Nat) : Nat := bitLength n n - 24

/-- The binary32 value nearest to `num / den` units, of two equally near the one with an
even significand, as a number of units: the rounding of every `float` operation and
literal (round to nearest, ties to even).  Overflow to an infinity is not modelled; no
value of this program reaches 4. -/
def roundBinary32 (num : Int) (den : Nat) : Int :=
  let shift := spacingExp (num.natAbs / den)
  let m := roundHalfEven num.natAbs (den * 2 ^ shift)
  if num < 0 then -((m * 2 ^ shift : Nat) : Int) else ((m * 2 ^ shift : Nat) : Int)

/-- The `float` literal with the decimal value `n / d`, such as `0.0002f` for 2 and 10000. -/
def f32lit (n : Int) (d : Nat) : Int := roundBinary32 (n * (unit149 : Int)) d

/-- The conversion of an integer to `float`. -/
def f32ofInt (k : Int) : Int := roundBinary32 (k * (unit149 : Int)) 1

/-- The sum of two `float` values, rounded once. -/
def f32add (a b : Int) : Int := roundBinary32 (a + b) 1

/-- The product of two `float` values, rounded once. -/
def f32mul (a b : Int) : Int := roundBinary32 (a * b) unit149

/-- The rational a `float` value is. -/
def f32toRat (a : Int) : ℚ := (a : ℚ) / (unit149 : ℚ)

/-- The expression `-0.5f + frame * 0.0002f`: the `int` is converted to `float`, the
product is rounded, the sum is rounded. -/
def offsetX (frame : Int) : Int :=
  f32add (-(f32lit 5 10)) (f32mul (f32ofInt frame) (f32lit 2 10000))

/-- The expression `-0.4f + i * 0.25f`, with `i` converted to `float`. -/
def offsetY (i : Nat) : Int :=
  f32add (-(f32lit 4 10)) (f32mul (f32ofInt (i : Int)) (f32lit 25 100))

/-- The expression `0.2f + 0.2f * i`, with `i` converted to `float`. -/
def colorZ (i : Nat) : Int :=
  f32add (f32lit 2 10) (f32mul (f32lit 2 10) (f32ofInt (i : Int)))

/-- The push-constant block of instance `i` at counter value `frame`, as lines 207 to 210
compute it: in `float`, every literal and every operation rounded to binary32, each
operation on its own (no wider intermediate format, no fused multiply-add). -/
def pushConstant (frame : Int) (i : Nat) : SimplePushConstantData :=
  { offset := (f32toRat (offsetX frame), f32toRat (offsetY i))
    color := (0, 0, f32toRat (colorZ i)) }

/-- One turn of the loop `for (size_t i = 0; i < 4; i++)`: an upload, then a draw. -/
def drawInstance (cb layout : Nat) (frame : Int) (i : Nat) : List Event :=
  [ .cmd cb (.vkCmdPushConstants layout
      (VK_SHADER_STAGE_VERTEX_BIT ||| VK_SHADER_STAGE_FRAGMENT_BIT) 0
      sizeofSimplePushConstantData (pushConstant frame i)),
    .cmd cb .modelDraw ]

/-- Everything `recordCommandBuffer` records between `vkBeginCommandBuffer` and
`vkEndCommandBuffer`. -/
def renderPassCommands (cb : Nat) (chain : EgeSwapChain) (pipeline : EgePipeline)
    (layout : PipelineLayout) (frame : Int) (imageIndex : Nat) : List Event :=
  [ .cmd cb (.vkCmdBeginRenderPass chain.getRenderPass (chain.getFrameBuffer imageIndex)
      (0, 0) chain.getSwapChainExtent (0, 0, 0, 1) 1 0),
    .cmd cb (.vkCmdSetViewport 0 0 (chain.getSwapChainExtent.width : ℚ)
      (chain.getSwapChainExtent.height : ℚ) 0 1),
    .cmd cb (.vkCmdSetScissor (0, 0) chain.getSwapChainExtent),
    .cmd cb (.pipelineBind pipeline.id),
    .cmd cb .modelBind ]
  ++ ((List.range 4).map (drawInstance cb layout.handle frame)).flatten
  ++ [ .cmd cb .vkCmdEndRenderPass ]

/-- The body of `EnchantedEngine::recordCommandBuffer`. -/
def recordCommandBuffer (env : Env) (imageIndex : Nat) (s : EnchantedEngine) :
    EnchantedEngine × Outcome :=
  let frame := (s.frame + 1) % 10000
  let s0 := { s.emit [.call (.recordCommandBuffer imageIndex)] with frame := frame }
  match s.commandBuffers[imageIndex]? with
  | none => (s0, .fault)
  | some cb =>
    let s1 := { s0.emit [.cmd cb .vkBeginCommandBuffer] with nBegin := s.nBegin + 1 }
    if env.beginCB s.nBegin ≠ VK_SUCCESS then
      (s1, .threw "failed to begin recording command buffer!")
    else
      match s.egeSwapChain, s.egePipeline, s.egeModel, s.pipelineLayout with
      | some chain, some pipeline, some _, some layout =>
        let s2 :=
          { s1.emit (renderPassCommands cb chain pipeline layout frame imageIndex
              ++ [.cmd cb .vkEndCommandBuffer])
            with nEnd := s.nEnd + 1 }
        if env.endCB s.nEnd ≠ VK_SUCCESS then (s2, .threw "failed to record command buffer!")
        else (s2, .returned)
      | _, _, _, _ => (s1, .fault)

/-- The part of `drawFrame` after `recordCommandBuffer` returned: submit, then recreate
or throw or return. -/
def submitAndReact (env : Env) (fuel : Nat) (chain : EgeSwapChain) (imageIndex : Nat)
    (s : EnchantedEngine) : EnchantedEngine × Outcome :=
  match s.commandBuffers[imageIndex]? with
  | none => (s, .fault)
  | some cb =>
    let result := env.submit s.nSubmit
    let s1 :=
      { s.emit [.submitCommandBuffers chain.id cb imageIndex result]
        with nSubmit := s.nSubmit + 1 }
    if result = VK_ERROR_OUT_OF_DATE_KHR ∨ result = VK_SUBOPTIMAL_KHR
        ∨ s1.framebufferResized = true then
      recreateSwapChain env fuel
        { s1.emit [.resetWindowResizedFlag] with framebufferResized := false }
    else if result ≠ VK_SUCCESS then (s1, .threw "failed to present swap chain image!")
    else (s1, .returned)

/-- The body of `EnchantedEngine::drawFrame`. -/
def drawFrame (env : Env) (fuel : Nat) (s : EnchantedEngine) : EnchantedEngine × Outcome :=
  let s0 := s.emit [.call .drawFrame]
  match s.egeSwapChain with
  | none => (s0, .fault)
  | some chain =>
    let result := (env.acquire s.nAcquire).1
    let imageIndex := (env.acquire s.nAcquire).2
    let s1 :=
      { s0.emit [.acquireNextImage chain.id result imageIndex] with nAcquire := s.nAcquire + 1 }
    if result = VK_ERROR_OUT_OF_DATE_KHR then recreateSwapChain env fuel s1
    else if result ≠ VK_SUCCESS ∧ result ≠ VK_SUBOPTIMAL_KHR then
      (s1, .threw "failed to acquire swap chain image!")
    else
      andThen (recordCommandBuffer env imageIndex s1) (submitAndReact env fuel chain imageIndex)

/-- The loop `while (!egeWindow.shouldClose())` of `run`, at most `turns` turns of it,
followed by the device-idle wait. -/
def runLoop (env : Env) (fuel : Nat) : Nat → EnchantedEngine → EnchantedEngine × Outcome
  | 0, s => (s, .stalled)
  | turns + 1, s =>
    let close := env.shouldClose s.nClose
    let s1 := { s.emit [.shouldClose close] with nClose := s.nClose + 1 }
    if close then (s1.emit [.vkDeviceWaitIdle], .returned)
    else andThen (drawFrame env fuel (s1.pump env .glfwPollEvents)) (runLoop env fuel turns)

/-- The body of `EnchantedEngine::run`. -/
def run (env : Env) (fuel turns : Nat) (s : EnchantedEngine) : EnchantedEngine × Outcome :=
  runLoop env fuel turns (s.emit [.call .run])

/-- The constructor `EnchantedEngine::EnchantedEngine`. -/
def construct (env : Env) (fuel : Nat) : EnchantedEngine × Outcome :=
  andThen (andThen (andThen (loadModels EnchantedEngine.fresh) (createPipelineLayout env))
    (recreateSwapChain env fuel)) (createCommandBuffers env)

/-! ## Reading traces -/

/-- The events a call added: the trace after it, without the trace before it. -/
def newEvents (s s' : EnchantedEngine) : List Event := s'.trace.drop s.trace.length

/-- Entry into `recordCommandBuffer`. -/
def Event.isRecordCall : Event → Bool
  | .call (.recordCommandBuffer _) => true
  | _ => false

/-- Entry into `recreateSwapChain`. -/
def Event.isRecreateCall : Event → Bool
  | .call .recreateSwapChain => true
  | _ => false

/-- Entry into `createPipeline`. -/
def Event.isCreatePipelineCall : Event → Bool
  | .call .createPipeline => true
  | _ => false

/-- A call of `submitCommandBuffers`. -/
def Event.isSubmit : Event → Bool
  | .submitCommandBuffers _ _ _ _ => true
  | _ => false

/-- A device-idle wait. -/
def Event.isDeviceWaitIdle : Event → Bool
  | .vkDeviceWaitIdle => true
  | _ => false

/-- A swap chain construction. -/
def Event.isNewSwapChain : Event → Bool
  | .newSwapChain _ _ _ _ => true
  | _ => false

/-- A pipeline construction. -/
def Event.isNewPipeline : Event → Bool
  | .newPipeline _ _ _ _ => true
  | _ => false

/-- A `vkCmdBeginRenderPass` recorded into some command buffer. -/
def Event.isBeginRenderPass : Event → Bool
  | .cmd _ (.vkCmdBeginRenderPass _ _ _ _ _ _ _) => true
  | _ => false

/-- A draw recorded into some command buffer. -/
def Event.isDraw : Event → Bool
  | .cmd _ .modelDraw => true
  | _ => false

/-- A push-constant upload recorded into some command buffer. -/
def Event.isPush : Event → Bool
  | .cmd _ (.vkCmdPushConstants _ _ _ _ _) => true
  | _ => false

/-- The command buffer an event records into, if it records. -/
def Event.target : Event → Option Nat
  | .cmd cb _ => some cb
  | _ => none

/-- The block of a push-constant upload. -/
def Event.pushed : Event → Option SimplePushConstantData
  | .cmd _ (.vkCmdPushConstants _ _ _ _ values) => some values
  | _ => none

/-- The events that occur below `recreateSwapChain`, its own entry apart. -/
def Event.inRecreate : Event → Bool
  | .getExtent _ => true
  | .glfwWaitEvents => true
  | .vkDeviceWaitIdle => true
  | .newSwapChain _ _ _ _ => true
  | .vkFreeCommandBuffers _ => true
  | .vkAllocateCommandBuffers _ _ => true
  | .newPipeline _ _ _ _ => true
  | .call .createPipeline => true
  | .call .freeCommandBuffers => true
  | .call .createCommandBuffers => true
  | _ => false

/-- The number of entries into `recordCommandBuffer` since the trace began. -/
def recordCalls (s : EnchantedEngine) : Nat := s.trace.countP Event.isRecordCall

/-- The static counter equals the number of recordings so far, modulo its period. -/
def FrameTracks (s : EnchantedEngine) : Prop := s.frame = (recordCalls s : Int) % 10000

/-! ## States and events of the member functions, written out -/

/-- An extent with a zero dimension. -/
def degenerate (e : VkExtent2D) : Prop := e.width = 0 ∨ e.height = 0

instance (e : VkExtent2D) : Decidable (degenerate e) := by
  unfold degenerate
  infer_instance

/-- The j-th extent `recreateSwapChain` reads when entered in state `s`: read 0 is the
one before the loop, read j + 1 the one of the j-th turn. -/
def extentRead (env : Env) (s : EnchantedEngine) (j : Nat) : VkExtent2D :=
  env.extent (s.nExtent + j)

/-- The events of `k` turns of the stall loop, the first of which reads extent number `n`. -/
def stallEvents (env : Env) (n : Nat) : Nat → List Event
  | 0 => []
  | k + 1 => [.getExtent (env.extent n), .glfwWaitEvents] ++ stallEvents env (n + 1) k

/-- Whether one of `k` event pumps, from pump number `p` on, delivers a resize. -/
def resizedDuring (env : Env) (p : Nat) : Nat → Bool
  | 0 => false
  | k + 1 => env.resize p || resizedDuring env (p + 1) k

/-- The state `k` turns of the stall loop lead to. -/
def afterStall (env : Env) (k : Nat) (s : EnchantedEngine) : EnchantedEngine :=
  { s with
    trace := s.trace ++ stallEvents env s.nExtent k
    nExtent := s.nExtent + k
    nPump := s.nPump + k
    framebufferResized := s.framebufferResized || resizedDuring env s.nPump k }

/-- The second state is the first with the counter untouched and events of kind `p`
appended. -/
def Grows (p : Event → Bool) (s s' : EnchantedEngine) : Prop :=
  s'.frame = s.frame ∧ s'.pipelineLayout = s.pipelineLayout ∧
    ∃ d, s'.trace = s.trace ++ d ∧ ∀ e ∈ d, p e = true

/-- The j-th extent the stall loop tests when entered with `extent` in state `s`. -/
def stallRead (env : Env) (s : EnchantedEngine) (extent : VkExtent2D) : Nat → VkExtent2D
  | 0 => extent
  | j + 1 => env.extent (s.nExtent + j)

/-- The state of `recreateSwapChain` just after its first extent read. -/
def afterFirstRead (env : Env) (s : EnchantedEngine) : EnchantedEngine :=
  { s.emit [.call .recreateSwapChain, .getExtent (env.extent s.nExtent)] with
    nExtent := s.nExtent + 1 }

/-- Whether `recreateSwapChain` frees and reallocates the command buffers: a chain
exists already and the new image count differs from the number of slots. -/
def reconciles (s : EnchantedEngine) (images : Nat) : Bool :=
  s.egeSwapChain.isSome && decide (images ≠ s.commandBuffers.length)

/-- The events of the slot reconciliation of `recreateSwapChain`. -/
def reconcileEvents (s : EnchantedEngine) (images : Nat) : List Event :=
  if reconciles s images then
    [.call .freeCommandBuffers, .vkFreeCommandBuffers s.commandBuffers,
      .call .createCommandBuffers, .vkAllocateCommandBuffers images VK_SUCCESS]
  else []

/-- The events of a rebuild that goes through. -/
def rebuildEvents (s : EnchantedEngine) (extent : VkExtent2D) (images layout : Nat) :
    List Event :=
  [.vkDeviceWaitIdle,
    .newSwapChain s.nChain extent (s.egeSwapChain.map (fun c => c.id)) true]
  ++ reconcileEvents s images
  ++ [.call .createPipeline, .newPipeline s.nPipeline s.nChain layout true]

/-- The chain a rebuild constructs. -/
def rebuiltChain (s : EnchantedEngine) (extent : VkExtent2D) (choice : ChainChoice) :
    EgeSwapChain :=
  { id := s.nChain, windowExtent := extent, previous := s.egeSwapChain.map (fun c => c.id),
    images := choice.images, swapChainExtent := choice.swapChainExtent }

/-- The collaborators let a rebuild entered in state `s` go through. -/
def RebuildGoesThrough (env : Env) (s : EnchantedEngine) (choice : ChainChoice)
    (layout : PipelineLayout) : Prop :=
  env.chain s.nChain = some choice ∧ s.pipelineLayout = some layout ∧
    env.pipeline s.nPipeline = true ∧
    (reconciles s choice.images = true → env.alloc s.nAlloc = VK_SUCCESS)

/-- The collaborators let a recreation entered in state `s` go through after `k` stalled
turns: `k` degenerate reads, a usable one, and a rebuild that goes through. -/
def RecreateGoesThrough (env : Env) (s : EnchantedEngine) (k : Nat) (choice : ChainChoice)
    (layout : PipelineLayout) : Prop :=
  (∀ j, j < k → degenerate (extentRead env s j)) ∧ ¬ degenerate (extentRead env s k) ∧
    RebuildGoesThrough env s choice layout

/-- The events of a recreation that goes through after `k` stalled turns. -/
def recreateEvents (env : Env) (s : EnchantedEngine) (k : Nat) (images layout : Nat) :
    List Event :=
  [.call .recreateSwapChain, .getExtent (extentRead env s 0)]
  ++ stallEvents env (s.nExtent + 1) k
  ++ rebuildEvents s (extentRead env s k) images layout

/-- The state a recording that goes through leaves behind. -/
def afterRecord (s : EnchantedEngine) (imageIndex cb : Nat) (chain : EgeSwapChain)
    (pipeline : EgePipeline) (layout : PipelineLayout) : EnchantedEngine :=
  { s with
    frame := (s.frame + 1) % 10000
    trace := s.trace ++ [.call (.recordCommandBuffer imageIndex), .cmd cb .vkBeginCommandBuffer]
      ++ renderPassCommands cb chain pipeline layout ((s.frame + 1) % 10000) imageIndex
      ++ [.cmd cb .vkEndCommandBuffer]
    nBegin := s.nBegin + 1
    nEnd := s.nEnd + 1 }

/-- Everything a recording needs is in place and the driver accepts begin and end. -/
def RecordGoesThrough (env : Env) (s : EnchantedEngine) (imageIndex cb : Nat)
    (chain : EgeSwapChain) (pipeline : EgePipeline) (layout : PipelineLayout) : Prop :=
  s.commandBuffers[imageIndex]? = some cb ∧ s.egeSwapChain = some chain ∧
    s.egePipeline = some pipeline ∧ s.pipelineLayout = some layout ∧
    s.egeModel.isSome = true ∧
    env.beginCB s.nBegin = VK_SUCCESS ∧ env.endCB s.nEnd = VK_SUCCESS

/-- The state of `drawFrame` just after `acquireNextImage` answered. -/
def afterAcquire (env : Env) (s : EnchantedEngine) (chain : EgeSwapChain) : EnchantedEngine :=
  { (s.emit [.call .drawFrame]).emit
      [.acquireNextImage chain.id (env.acquire s.nAcquire).1 (env.acquire s.nAcquire).2] with
    nAcquire := s.nAcquire + 1 }

/-- The state of `drawFrame` just after `submitCommandBuffers` answered, `t` being the
state the recording left. -/
def afterSubmit (env : Env) (t : EnchantedEngine) (chain : EgeSwapChain) (imageIndex cb : Nat) :
    EnchantedEngine :=
  { t.emit [.submitCommandBuffers chain.id cb imageIndex (env.submit t.nSubmit)] with
    nSubmit := t.nSubmit + 1 }

/-- The state in which `drawFrame` enters `recreateSwapChain` after a submit: the resize
flag has been reset. -/
def afterReset (u : EnchantedEngine) : EnchantedEngine :=
  { u.emit [.resetWindowResizedFlag] with framebufferResized := false }

/-- The events of a frame up to and including the submit. -/
def frameEvents (env : Env) (s : EnchantedEngine) (cb : Nat) (chain : EgeSwapChain)
    (pipeline : EgePipeline) (layout : PipelineLayout) : List Event :=
  [.call .drawFrame,
    .acquireNextImage chain.id (env.acquire s.nAcquire).1 (env.acquire s.nAcquire).2,
    .call (.recordCommandBuffer (env.acquire s.nAcquire).2),
    .cmd cb .vkBeginCommandBuffer]
  ++ renderPassCommands cb chain pipeline layout ((s.frame + 1) % 10000)
      (env.acquire s.nAcquire).2
  ++ [.cmd cb .vkEndCommandBuffer,
    .submitCommandBuffers chain.id cb (env.acquire s.nAcquire).2 (env.submit s.nSubmit)]

/-- The state of a frame just after the submit answered. -/
def submitted (env : Env) (s : EnchantedEngine) (cb : Nat) (chain : EgeSwapChain)
    (pipeline : EgePipeline) (layout : PipelineLayout) : EnchantedEngine :=
  afterSubmit env
    (afterRecord (afterAcquire env s chain) (env.acquire s.nAcquire).2 cb chain pipeline layout)
    chain (env.acquire s.nAcquire).2 cb

/-- The state in which a turn of the run loop calls `drawFrame`: the window did not ask
to close and the events were polled. -/
def afterPoll (env : Env) (s : EnchantedEngine) : EnchantedEngine :=
  ({ s.emit [.shouldClose (env.shouldClose s.nClose)] with nClose := s.nClose + 1 }).pump env
    .glfwPollEvents

/-! ## Invariants -/

/-- One command buffer per image of the current chain. -/
def SlotsMatch (s : EnchantedEngine) : Prop :=
  ∃ chain, s.egeSwapChain = some chain ∧ s.commandBuffers.length = chain.imageCount

/-- The range `createPipelineLayout` prepares and points to. -/
def preparedRange : VkPushConstantRange :=
  { stageFlags := VK_SHADER_STAGE_VERTEX_BIT ||| VK_SHADER_STAGE_FRAGMENT_BIT
    offset := 0
    size := sizeofSimplePushConstantData }

/-- The pipeline layout of the engine is the one `createPipelineLayout` creates: a range
count of zero, with the prepared range pointed to. -/
def LayoutAsCreated (s : EnchantedEngine) : Prop :=
  ∃ layout, s.pipelineLayout = some layout ∧ layout.info.pushConstantRangeCount = 0 ∧
    layout.info.pPushConstantRanges = [preparedRange]

/-- The states between member function calls once the constructor has completed: the
state the constructor leaves, and from such a state the one a returning
`recreateSwapChain` or `drawFrame` leaves, the one in which `run` enters its loop and
the one in which a turn of the run loop calls `drawFrame`. -/
inductive Reachable (env : Env) : EnchantedEngine → Prop
  | construct (fuel : Nat) :
      (construct env fuel).2 = .returned → Reachable env (construct env fuel).1
  | recreateSwapChain (fuel : Nat) (s : EnchantedEngine) :
      Reachable env s → (recreateSwapChain env fuel s).2 = .returned →
        Reachable env (recreateSwapChain env fuel s).1
  | drawFrame (fuel : Nat) (s : EnchantedEngine) :
      Reachable env s → (drawFrame env fuel s).2 = .returned →
        Reachable env (drawFrame env fuel s).1
  | poll (s : EnchantedEngine) : Reachable env s → Reachable env (afterPoll env s)
  | run (s : EnchantedEngine) : Reachable env s → Reachable env (s.emit [.call .run])

/-- The three invariants together. -/
def Sound (s : EnchantedEngine) : Prop := SlotsMatch s ∧ FrameTracks s ∧ LayoutAsCreated s

/-- A free or an allocation of command buffers. -/
def Event.isSlotCall : Event → Bool
  | .vkFreeCommandBuffers _ => true
  | .vkAllocateCommandBuffers _ _ => true
  | _ => false

/-- A read of the window extent. -/
def Event.isGetExtent : Event → Bool
  | .getExtent _ => true
  | _ => false

/-- A blocking wait for window events. -/
def Event.isWaitEvents : Event → Bool
  | .glfwWaitEvents => true
  | _ => false

/-- A device-idle wait, a chain construction or a pipeline construction: what
`recreateSwapChain` does once past the stall. -/
def Event.isPastStall (e : Event) : Bool :=
  e.isDeviceWaitIdle || e.isNewSwapChain || e.isNewPipeline

/-! ## Concrete environments and states -/

/-- An environment in which every collaborator succeeds: a window of 800 by 600, chains
of three images, no resize, no request to close. -/
def calm : Env :=
  { extent := fun _ => ⟨800, 600⟩
    chain := fun _ => some ⟨3, ⟨800, 600⟩⟩
    pipeline := fun _ => true
    layout := fun _ => VK_SUCCESS
    alloc := fun _ => VK_SUCCESS
    acquire := fun _ => (VK_SUCCESS, 0)
    submit := fun _ => VK_SUCCESS
    beginCB := fun _ => VK_SUCCESS
    endCB := fun _ => VK_SUCCESS
    shouldClose := fun _ => false
    resize := fun _ => false }

/-- As `calm`, with every acquire reporting a stale chain. -/
def staleAcquire : Env := { calm with acquire := fun _ => (VK_ERROR_OUT_OF_DATE_KHR, 0) }

/-- As `calm`, with every acquire reporting a lost device. -/
def lostAcquire : Env := { calm with acquire := fun _ => (VK_ERROR_DEVICE_LOST, 0) }

/-- As `calm`, with a resize delivered by every event pump. -/
def resizing : Env := { calm with resize := fun _ => true }

/-- As `calm`, with every submit reporting a lost device. -/
def lostSubmit : Env := { calm with submit := fun _ => VK_ERROR_DEVICE_LOST }

/-- As `lostSubmit`, with a resize delivered by every event pump. -/
def lostSubmitResizing : Env :=
  { calm with submit := fun _ => VK_ERROR_DEVICE_LOST, resize := fun _ => true }

/-- As `calm`, with the number n chain having n + 2 images. -/
def varying : Env := { calm with chain := fun n => some ⟨n + 2, ⟨800, 600⟩⟩ }

/-- As `calm`, with a minimised window at the first two reads and 640 by 480 after. -/
def minimised : Env :=
  { calm with extent := fun n => if n < 2 then ⟨0, 0⟩ else ⟨640, 480⟩ }

/-- The chain the constructor builds under `calm`. -/
def firstChain : EgeSwapChain :=
  { id := 0, windowExtent := ⟨800, 600⟩, previous := none, images := 3,
    swapChainExtent := ⟨800, 600⟩ }

/-- The pipeline the constructor builds under `calm`. -/
def firstPipeline : EgePipeline := { id := 0, renderPass := 0, pipelineLayout := 1 }

/-- The layout the constructor creates. -/
def firstLayout : PipelineLayout := { handle := 1, info := ⟨0, 0, [preparedRange]⟩ }

instance (s : EnchantedEngine) : Decidable (FrameTracks s) := by
  unfold FrameTracks
  infer_instance

/-! # Theorems -/

/-! ## The stall loop -/

theorem afterStall_zero (env : Env) (s : EnchantedEngine) : afterStall env 0 s = s := by
  cases s
  simp [afterStall, stallEvents, resizedDuring]

theorem afterStall_succ (env : Env) (k : Nat) (s : EnchantedEngine) :
    afterStall env k
      (({ s.emit [.getExtent (env.extent s.nExtent)] with nExtent := s.nExtent + 1 }).pump env
        .glfwWaitEvents) = afterStall env (k + 1) s := by
  cases s
  simp [afterStall, stallEvents, resizedDuring, EnchantedEngine.pump, EnchantedEngine.emit,
    Nat.add_assoc, Nat.add_comm 1 k, Bool.or_assoc]

/-- Whatever the bound, the stall loop performs some number of turns within it. -/
theorem stallLoop_shape (env : Env) (fuel : Nat) :
    ∀ (s : EnchantedEngine) (extent : VkExtent2D),
      ∃ k, k ≤ fuel ∧ (stallLoop env fuel s extent).1 = afterStall env k s := by
  induction fuel with
  | zero =>
    intro s extent
    refine ⟨0, le_refl _, ?_⟩
    rw [afterStall_zero]
    unfold stallLoop
    split <;> rfl
  | succ n ih =>
    intro s extent
    unfold stallLoop
    split
    · obtain ⟨k, hk, h⟩ := ih
        (({ s.emit [.getExtent (env.extent s.nExtent)] with nExtent := s.nExtent + 1 }).pump env
          .glfwWaitEvents) (env.extent s.nExtent)
      exact ⟨k + 1, Nat.succ_le_succ hk, by rw [← afterStall_succ]; exact h⟩
    · exact ⟨0, Nat.zero_le _, by rw [afterStall_zero]⟩

theorem Grows.trans {p : Event → Bool} {a b c : EnchantedEngine} (h₁ : Grows p a b)
    (h₂ : Grows p b c) : Grows p a c := by
  obtain ⟨f₁, l₁, d₁, t₁, a₁⟩ := h₁
  obtain ⟨f₂, l₂, d₂, t₂, a₂⟩ := h₂
  refine ⟨f₂.trans f₁, l₂.trans l₁, d₁ ++ d₂, by rw [t₂, t₁, List.append_assoc], ?_⟩
  intro e he
  rcases List.mem_append.mp he with h | h
  · exact a₁ e h
  · exact a₂ e h

theorem Grows.of_eq {p : Event → Bool} {s s' : EnchantedEngine} (d : List Event)
    (hf : s'.frame = s.frame) (hl : s'.pipelineLayout = s.pipelineLayout)
    (ht : s'.trace = s.trace ++ d) (hp : ∀ e ∈ d, p e = true) :
    Grows p s s' := ⟨hf, hl, d, ht, hp⟩

theorem andThen_grows {p : Event → Bool} {s : EnchantedEngine} (r : EnchantedEngine × Outcome)
    (k : EnchantedEngine → EnchantedEngine × Outcome) (h₁ : Grows p s r.1)
    (h₂ : ∀ t, Grows p t (k t).1) : Grows p s (andThen r k).1 := by
  unfold andThen
  split
  · exact h₁.trans (h₂ _)
  · exact h₁

/-! ## Recreation -/

theorem createPipeline_grows (env : Env) (s : EnchantedEngine) :
    Grows Event.inRecreate s (createPipeline env s).1 := by
  unfold createPipeline
  split
  · dsimp only
    split
    · exact Grows.of_eq _ rfl rfl (by simp [EnchantedEngine.emit]; rfl) (by simp [Event.inRecreate])
    · exact Grows.of_eq _ rfl rfl (by simp [EnchantedEngine.emit]; rfl) (by simp [Event.inRecreate])
  · exact Grows.of_eq _ rfl rfl (by simp [EnchantedEngine.emit]; rfl) (by simp [Event.inRecreate])

theorem freeCommandBuffers_grows (s : EnchantedEngine) :
    Grows Event.inRecreate s (freeCommandBuffers s).1 :=
  Grows.of_eq _ rfl rfl (by simp [freeCommandBuffers, EnchantedEngine.emit]; rfl)
    (by simp [Event.inRecreate])

theorem createCommandBuffers_grows (env : Env) (s : EnchantedEngine) :
    Grows Event.inRecreate s (createCommandBuffers env s).1 := by
  unfold createCommandBuffers
  split
  · exact Grows.of_eq _ rfl rfl (by simp [EnchantedEngine.emit]; rfl) (by simp [Event.inRecreate])
  · dsimp only
    split
    · exact Grows.of_eq _ rfl rfl (by simp [EnchantedEngine.emit]; rfl) (by simp [Event.inRecreate])
    · exact Grows.of_eq _ rfl rfl (by simp [EnchantedEngine.emit]; rfl) (by simp [Event.inRecreate])

theorem stallEvents_inRecreate (env : Env) (k : Nat) :
    ∀ n, ∀ e ∈ stallEvents env n k, Event.inRecreate e = true := by
  induction k with
  | zero => intro n e he; simp [stallEvents] at he
  | succ k ih =>
    intro n e he
    simp only [stallEvents, List.mem_append, List.mem_cons, List.mem_singleton] at he
    rcases he with (h | h | h) | h
    · subst h; rfl
    · subst h; rfl
    · simp at h
    · exact ih _ e h

theorem stallLoop_grows (env : Env) (fuel : Nat) (s : EnchantedEngine) (extent : VkExtent2D) :
    Grows Event.inRecreate s (stallLoop env fuel s extent).1 := by
  obtain ⟨k, _, h⟩ := stallLoop_shape env fuel s extent
  rw [h]
  exact Grows.of_eq (stallEvents env s.nExtent k) rfl rfl rfl (stallEvents_inRecreate env k _)

theorem rebuild_grows (env : Env) (s : EnchantedEngine) (extent : VkExtent2D) :
    Grows Event.inRecreate s (rebuild env s extent).1 := by
  unfold rebuild
  dsimp only
  split
  · exact Grows.of_eq _ rfl rfl (by simp [EnchantedEngine.emit]; rfl) (by simp [Event.inRecreate])
  · have h0 : ∀ (c : EgeSwapChain), Grows Event.inRecreate s
        { (s.emit [.vkDeviceWaitIdle]).emit
            [.newSwapChain s.nChain extent (s.egeSwapChain.map (fun c => c.id)) true] with
          nChain := s.nChain + 1, egeSwapChain := some c } := fun c =>
      Grows.of_eq _ rfl rfl (by simp [EnchantedEngine.emit]; rfl) (by simp [Event.inRecreate])
    split
    · exact (h0 _).trans (createPipeline_grows env _)
    · split
      · exact andThen_grows _ _
          (andThen_grows _ _ ((h0 _).trans (freeCommandBuffers_grows _))
            (createCommandBuffers_grows env))
          (createPipeline_grows env)
      · exact (h0 _).trans (createPipeline_grows env _)

/-- Whatever its outcome, `recreateSwapChain` leaves the frame counter alone and adds its
own entry followed only by events of its own kind. -/
theorem recreateSwapChain_grows (env : Env) (fuel : Nat) (s : EnchantedEngine) :
    (recreateSwapChain env fuel s).1.frame = s.frame ∧
      (recreateSwapChain env fuel s).1.pipelineLayout = s.pipelineLayout ∧
      ∃ d, (recreateSwapChain env fuel s).1.trace = s.trace ++ Event.call .recreateSwapChain :: d ∧
        ∀ e ∈ d, Event.inRecreate e = true := by
  have key : Grows Event.inRecreate
      ({ s.emit [.call .recreateSwapChain, .getExtent (env.extent s.nExtent)] with
          nExtent := s.nExtent + 1 }) (recreateSwapChain env fuel s).1 := by
    unfold recreateSwapChain
    dsimp only
    have h := stallLoop_grows env fuel
      ({ s.emit [.call .recreateSwapChain, .getExtent (env.extent s.nExtent)] with
          nExtent := s.nExtent + 1 }) (env.extent s.nExtent)
    split
    · rename_i s2 heq
      rw [heq] at h
      exact h
    · rename_i s2 e heq
      rw [heq] at h
      exact h.trans (rebuild_grows env s2 e)
  obtain ⟨hf, hl, d, ht, hp⟩ := key
  refine ⟨hf, hl, Event.getExtent (env.extent s.nExtent) :: d, ?_, ?_⟩
  · rw [ht]
    simp [EnchantedEngine.emit]
  · intro e he
    rcases List.mem_cons.mp he with h | h
    · subst h; rfl
    · exact hp e h

/-- The stall loop makes `k` turns, where the first `k` extents it tests are degenerate;
it then either yields the next one, which is usable, or has used the bound up. -/
theorem stallLoop_spec (env : Env) (fuel : Nat) :
    ∀ (s : EnchantedEngine) (extent : VkExtent2D),
      ∃ k, k ≤ fuel ∧ (∀ j, j < k → degenerate (stallRead env s extent j)) ∧
        ((degenerate (stallRead env s extent k) ∧ k = fuel ∧
            stallLoop env fuel s extent = (afterStall env k s, none)) ∨
          (¬ degenerate (stallRead env s extent k) ∧
            stallLoop env fuel s extent = (afterStall env k s, some (stallRead env s extent k)))) := by
  induction fuel with
  | zero =>
    intro s extent
    refine ⟨0, le_refl _, fun j hj => absurd hj (Nat.not_lt_zero _), ?_⟩
    by_cases hd : extent.width = 0 ∨ extent.height = 0
    · exact Or.inl ⟨hd, rfl, by simp [stallLoop, hd, afterStall_zero]⟩
    · exact Or.inr ⟨hd, by simp [stallLoop, hd, afterStall_zero, stallRead]⟩
  | succ n ih =>
    intro s extent
    by_cases hd : extent.width = 0 ∨ extent.height = 0
    · obtain ⟨k, hk, hall, hcase⟩ := ih
        (({ s.emit [.getExtent (env.extent s.nExtent)] with nExtent := s.nExtent + 1 }).pump env
          .glfwWaitEvents) (env.extent s.nExtent)
      have hread : ∀ j, stallRead env
          (({ s.emit [.getExtent (env.extent s.nExtent)] with nExtent := s.nExtent + 1 }).pump env
            .glfwWaitEvents) (env.extent s.nExtent) j = stallRead env s extent (j + 1) := by
        intro j
        cases j with
        | zero => simp [stallRead]
        | succ j =>
          simp [stallRead, EnchantedEngine.pump, EnchantedEngine.emit, Nat.add_assoc,
            Nat.add_comm 1 j]
      refine ⟨k + 1, Nat.succ_le_succ hk, ?_, ?_⟩
      · intro j hj
        cases j with
        | zero => exact hd
        | succ j => rw [← hread]; exact hall j (by omega)
      · simp only [stallLoop, hd, if_true]
        rw [← hread, ← afterStall_succ]
        rcases hcase with ⟨h1, h2, h3⟩ | ⟨h1, h3⟩
        · exact Or.inl ⟨h1, by omega, h3⟩
        · exact Or.inr ⟨h1, h3⟩
    · refine ⟨0, Nat.zero_le _, fun j hj => absurd hj (Nat.not_lt_zero _), Or.inr ⟨hd, ?_⟩⟩
      simp [stallLoop, hd, afterStall_zero, stallRead]

/-- The shape of every `recreateSwapChain` call: `k` stalled turns over degenerate reads,
then either the bound is used up or the next read is usable and the rebuild runs on it. -/
theorem recreateSwapChain_spec (env : Env) (fuel : Nat) (s : EnchantedEngine) :
    ∃ k, k ≤ fuel ∧ (∀ j, j < k → degenerate (extentRead env s j)) ∧
      ((degenerate (extentRead env s k) ∧ k = fuel ∧
          recreateSwapChain env fuel s = (afterStall env k (afterFirstRead env s), .stalled)) ∨
        (¬ degenerate (extentRead env s k) ∧
          recreateSwapChain env fuel s =
            rebuild env (afterStall env k (afterFirstRead env s)) (extentRead env s k))) := by
  obtain ⟨k, hk, hall, hcase⟩ :=
    stallLoop_spec env fuel (afterFirstRead env s) (env.extent s.nExtent)
  have hread : ∀ j, stallRead env (afterFirstRead env s) (env.extent s.nExtent) j
      = extentRead env s j := by
    intro j
    cases j with
    | zero => simp [stallRead, extentRead]
    | succ j =>
      simp [stallRead, extentRead, afterFirstRead, EnchantedEngine.emit, Nat.add_assoc,
        Nat.add_comm 1 j]
  simp only [hread] at hall hcase
  refine ⟨k, hk, hall, ?_⟩
  have hunfold : recreateSwapChain env fuel s =
      match stallLoop env fuel (afterFirstRead env s) (env.extent s.nExtent) with
      | (s2, none) => (s2, .stalled)
      | (s2, some extent) => rebuild env s2 extent := rfl
  rcases hcase with ⟨h1, h2, h3⟩ | ⟨h1, h3⟩
  · exact Or.inl ⟨h1, h2, by rw [hunfold, h3]⟩
  · exact Or.inr ⟨h1, by rw [hunfold, h3]⟩

/-- What a rebuild that goes through leaves behind. -/
theorem rebuild_ok (env : Env) (s : EnchantedEngine) (extent : VkExtent2D)
    (choice : ChainChoice) (layout : PipelineLayout)
    (h : RebuildGoesThrough env s choice layout) :
    (rebuild env s extent).2 = .returned ∧
      (rebuild env s extent).1.egeSwapChain = some (rebuiltChain s extent choice) ∧
      (rebuild env s extent).1.commandBuffers =
        (if reconciles s choice.images then
          (List.range choice.images).map (fun i => s.nHandle + 1 + i)
        else s.commandBuffers) ∧
      (rebuild env s extent).1.egePipeline = some ⟨s.nPipeline, s.nChain, layout.handle⟩ ∧
      (rebuild env s extent).1.trace =
        s.trace ++ rebuildEvents s extent choice.images layout.handle := by
  obtain ⟨hc, hl, hp, ha⟩ := h
  cases hsc : s.egeSwapChain with
  | none =>
    simp [rebuild, hc, hsc, hl, hp, createPipeline, EnchantedEngine.emit, rebuiltChain,
      rebuildEvents, reconcileEvents, reconciles, EgeSwapChain.getRenderPass]
  | some old =>
    by_cases hn : choice.images = s.commandBuffers.length
    · simp [rebuild, hc, hsc, hl, hp, hn, createPipeline, EnchantedEngine.emit, rebuiltChain,
        rebuildEvents, reconcileEvents, reconciles, EgeSwapChain.getRenderPass,
        EgeSwapChain.imageCount]
    · have hal : env.alloc s.nAlloc = VK_SUCCESS := ha (by simp [reconciles, hsc, hn])
      simp [rebuild, hc, hsc, hl, hp, hn, hal, createPipeline, createCommandBuffers,
        freeCommandBuffers, andThen, EnchantedEngine.emit, rebuiltChain, rebuildEvents,
        reconcileEvents, reconciles, EgeSwapChain.getRenderPass, EgeSwapChain.imageCount]

/-- A rebuild returns only when the collaborators let it go through. -/
theorem rebuild_returned (env : Env) (s : EnchantedEngine) (extent : VkExtent2D)
    (h : (rebuild env s extent).2 = .returned) :
    ∃ choice layout, RebuildGoesThrough env s choice layout := by
  cases hc : env.chain s.nChain with
  | none => simp [rebuild, hc] at h
  | some choice =>
    cases hl : s.pipelineLayout with
    | none =>
      exfalso
      cases hsc : s.egeSwapChain with
      | none => simp [rebuild, hc, hsc, hl, createPipeline, EnchantedEngine.emit] at h
      | some old =>
        by_cases hn : choice.images = s.commandBuffers.length
        · simp [rebuild, hc, hsc, hl, hn, createPipeline, EnchantedEngine.emit,
            EgeSwapChain.imageCount] at h
        · by_cases hal : env.alloc s.nAlloc = VK_SUCCESS
          · simp [rebuild, hc, hsc, hl, hn, hal, createPipeline, createCommandBuffers,
              freeCommandBuffers, andThen, EnchantedEngine.emit, EgeSwapChain.imageCount] at h
          · simp [rebuild, hc, hsc, hl, hn, hal, createPipeline, createCommandBuffers,
              freeCommandBuffers, andThen, EnchantedEngine.emit, EgeSwapChain.imageCount] at h
    | some layout =>
      refine ⟨choice, layout, hc, hl, ?_, ?_⟩
      · by_contra hp
        cases hsc : s.egeSwapChain with
        | none => simp [rebuild, hc, hsc, hl, hp, createPipeline, EnchantedEngine.emit] at h
        | some old =>
          by_cases hn : choice.images = s.commandBuffers.length
          · simp [rebuild, hc, hsc, hl, hn, hp, createPipeline, EnchantedEngine.emit,
              EgeSwapChain.imageCount] at h
          · by_cases hal : env.alloc s.nAlloc = VK_SUCCESS
            · simp [rebuild, hc, hsc, hl, hn, hal, hp, createPipeline, createCommandBuffers,
                freeCommandBuffers, andThen, EnchantedEngine.emit, EgeSwapChain.imageCount] at h
            · simp [rebuild, hc, hsc, hl, hn, hal, hp, createPipeline, createCommandBuffers,
                freeCommandBuffers, andThen, EnchantedEngine.emit, EgeSwapChain.imageCount] at h
      · intro hr
        by_contra hal
        cases hsc : s.egeSwapChain with
        | none => simp [reconciles, hsc] at hr
        | some old =>
          have hn : ¬ choice.images = s.commandBuffers.length := by
            simpa [reconciles, hsc] using hr
          simp [rebuild, hc, hsc, hl, hn, hal, createPipeline, createCommandBuffers,
            freeCommandBuffers, andThen, EnchantedEngine.emit, EgeSwapChain.imageCount] at h

theorem rebuildGoesThrough_stalled (env : Env) (s : EnchantedEngine) (k : Nat)
    (choice : ChainChoice) (layout : PipelineLayout) :
    RebuildGoesThrough env (afterStall env k (afterFirstRead env s)) choice layout ↔
      RebuildGoesThrough env s choice layout := by
  simp [RebuildGoesThrough, afterStall, afterFirstRead, EnchantedEngine.emit, reconciles]

/-- A recreation that the collaborators let through returns, and what it leaves behind. -/
theorem recreateSwapChain_ok (env : Env) (fuel : Nat) (s : EnchantedEngine) (k : Nat)
    (choice : ChainChoice) (layout : PipelineLayout) (hk : k ≤ fuel)
    (h : RecreateGoesThrough env s k choice layout) :
    (recreateSwapChain env fuel s).2 = .returned ∧
      (recreateSwapChain env fuel s).1.egeSwapChain =
        some (rebuiltChain s (extentRead env s k) choice) ∧
      (recreateSwapChain env fuel s).1.commandBuffers =
        (if reconciles s choice.images then
          (List.range choice.images).map (fun i => s.nHandle + 1 + i)
        else s.commandBuffers) ∧
      (recreateSwapChain env fuel s).1.egePipeline = some ⟨s.nPipeline, s.nChain, layout.handle⟩ ∧
      (recreateSwapChain env fuel s).1.trace =
        s.trace ++ recreateEvents env s k choice.images layout.handle := by
  obtain ⟨hdeg, huse, hgo⟩ := h
  obtain ⟨k', hk', hall, hcase⟩ := recreateSwapChain_spec env fuel s
  have hkk : k' = k := by
    rcases Nat.lt_trichotomy k' k with hlt | heq | hgt
    · rcases hcase with ⟨_, h2, _⟩ | ⟨h1, _⟩
      · omega
      · exact absurd (hdeg k' hlt) h1
    · exact heq
    · exact absurd (hall k hgt) huse
  subst hkk
  rcases hcase with ⟨h1, _, _⟩ | ⟨_, h3⟩
  · exact absurd h1 huse
  · rw [h3]
    obtain ⟨r1, r2, r3, r4, r5⟩ := rebuild_ok env (afterStall env k' (afterFirstRead env s))
      (extentRead env s k') choice layout ((rebuildGoesThrough_stalled env s k' choice layout).mpr hgo)
    refine ⟨r1, ?_, ?_, ?_, ?_⟩
    · rw [r2]
      simp [rebuiltChain, afterStall, afterFirstRead, EnchantedEngine.emit]
    · rw [r3]
      simp [reconciles, afterStall, afterFirstRead, EnchantedEngine.emit]
    · rw [r4]
      simp [afterStall, afterFirstRead, EnchantedEngine.emit]
    · rw [r5]
      simp [recreateEvents, rebuildEvents, reconcileEvents, reconciles, afterStall,
        afterFirstRead, EnchantedEngine.emit, extentRead]

/-- A recreation returns only when the collaborators let it through. -/
theorem recreateSwapChain_returned (env : Env) (fuel : Nat) (s : EnchantedEngine)
    (h : (recreateSwapChain env fuel s).2 = .returned) :
    ∃ k choice layout, k ≤ fuel ∧ RecreateGoesThrough env s k choice layout := by
  obtain ⟨k, hk, hall, hcase⟩ := recreateSwapChain_spec env fuel s
  rcases hcase with ⟨_, _, h3⟩ | ⟨h1, h3⟩
  · rw [h3] at h
    simp at h
  · rw [h3] at h
    obtain ⟨choice, layout, hgo⟩ := rebuild_returned env _ _ h
    exact ⟨k, choice, layout, hk, hall, h1,
      (rebuildGoesThrough_stalled env s k choice layout).mp hgo⟩

/-- A recreation that never reads a usable extent uses every bound up, without a
device-idle wait, a chain or a pipeline. -/
theorem recreateSwapChain_stalls (env : Env) (fuel : Nat) (s : EnchantedEngine)
    (h : ∀ j, degenerate (extentRead env s j)) :
    recreateSwapChain env fuel s = (afterStall env fuel (afterFirstRead env s), .stalled) := by
  obtain ⟨k, hk, _, hcase⟩ := recreateSwapChain_spec env fuel s
  rcases hcase with ⟨_, h2, h3⟩ | ⟨h1, _⟩
  · rw [h3, h2]
  · exact absurd (h k) h1

/-! ## Recording -/

theorem recordCommandBuffer_ok (env : Env) (s : EnchantedEngine) (imageIndex cb : Nat)
    (chain : EgeSwapChain) (pipeline : EgePipeline) (layout : PipelineLayout)
    (h : RecordGoesThrough env s imageIndex cb chain pipeline layout) :
    recordCommandBuffer env imageIndex s =
      (afterRecord s imageIndex cb chain pipeline layout, .returned) := by
  obtain ⟨h1, h2, h3, h4, h5, h6, h7⟩ := h
  obtain ⟨m, hm⟩ := Option.isSome_iff_exists.mp h5
  simp [recordCommandBuffer, h1, h2, h3, h4, hm, h6, h7, afterRecord, EnchantedEngine.emit]

theorem recordCommandBuffer_returned (env : Env) (s : EnchantedEngine) (imageIndex : Nat)
    (h : (recordCommandBuffer env imageIndex s).2 = .returned) :
    ∃ cb chain pipeline layout, RecordGoesThrough env s imageIndex cb chain pipeline layout := by
  unfold recordCommandBuffer at h
  dsimp only at h
  split at h
  · simp at h
  · rename_i cb hcb
    split at h
    · simp at h
    · rename_i hb
      split at h
      · rename_i chain pipeline m layout hc hp hm hl
        split at h
        · simp at h
        · rename_i he
          exact ⟨cb, chain, pipeline, layout, hcb, hc, hp, hl, by simp [hm],
            by simpa using hb, by simpa using he⟩
      · simp at h

/-! ## One frame -/

theorem newEvents_append (s s' : EnchantedEngine) (d : List Event)
    (h : s'.trace = s.trace ++ d) : newEvents s s' = d := by
  simp [newEvents, h]

theorem countP_inRecreate (p : Event → Bool) (d : List Event)
    (hd : ∀ e ∈ d, Event.inRecreate e = true)
    (hp : ∀ e, Event.inRecreate e = true → p e = false) : d.countP p = 0 := by
  rw [List.countP_eq_zero]
  intro e he
  simp [hp e (hd e he)]

theorem inRecreate_not_recreateCall (e : Event) (h : Event.inRecreate e = true) :
    Event.isRecreateCall e = false := by
  cases e with
  | call f => cases f <;> simp_all [Event.inRecreate, Event.isRecreateCall]
  | _ => rfl

theorem inRecreate_not_recordCall (e : Event) (h : Event.inRecreate e = true) :
    Event.isRecordCall e = false := by
  cases e with
  | call f => cases f <;> simp_all [Event.inRecreate, Event.isRecordCall]
  | _ => rfl

theorem inRecreate_not_submit (e : Event) (h : Event.inRecreate e = true) :
    Event.isSubmit e = false := by
  cases e <;> simp_all [Event.inRecreate, Event.isSubmit]

theorem inRecreate_target (e : Event) (h : Event.inRecreate e = true) : e.target = none := by
  cases e <;> simp_all [Event.inRecreate, Event.target]

/-- C1. When `acquireNextImage` answers `VK_ERROR_OUT_OF_DATE_KHR`, `drawFrame` is exactly
one call of `recreateSwapChain` on the state the acquire left and nothing after it: it
ends as that call ends, it returns whenever the collaborators let the recreation
through, and whatever the outcome its events contain one entry into `recreateSwapChain`,
no entry into `recordCommandBuffer`, no submit and no recorded command, and the frame
counter keeps its value. -/
theorem C1_stale_acquire_recreates_and_skips (env : Env) (fuel : Nat) (s : EnchantedEngine)
    (chain : EgeSwapChain) (hc : s.egeSwapChain = some chain)
    (hs : (env.acquire s.nAcquire).1 = VK_ERROR_OUT_OF_DATE_KHR) :
    drawFrame env fuel s = recreateSwapChain env fuel (afterAcquire env s chain) ∧
      (∀ k choice layout, k ≤ fuel → RecreateGoesThrough env s k choice layout →
        (drawFrame env fuel s).2 = .returned) ∧
      (newEvents s (drawFrame env fuel s).1).countP Event.isRecreateCall = 1 ∧
      (newEvents s (drawFrame env fuel s).1).countP Event.isRecordCall = 0 ∧
      (newEvents s (drawFrame env fuel s).1).countP Event.isSubmit = 0 ∧
      (∀ e ∈ newEvents s (drawFrame env fuel s).1, e.target = none) ∧
      (drawFrame env fuel s).1.frame = s.frame := by
  have heq : drawFrame env fuel s = recreateSwapChain env fuel (afterAcquire env s chain) := by
    simp [drawFrame, hc, hs, afterAcquire]
  obtain ⟨hf, _, d, ht, hd⟩ := recreateSwapChain_grows env fuel (afterAcquire env s chain)
  have hnew : newEvents s (drawFrame env fuel s).1 =
      [.call .drawFrame,
        .acquireNextImage chain.id (env.acquire s.nAcquire).1 (env.acquire s.nAcquire).2,
        .call .recreateSwapChain] ++ d := by
    apply newEvents_append
    rw [heq, ht]
    simp [afterAcquire, EnchantedEngine.emit]
  refine ⟨heq, ?_, ?_, ?_, ?_, ?_, ?_⟩
  · intro k choice layout hk hgo
    rw [heq]
    refine (recreateSwapChain_ok env fuel _ k choice layout hk ?_).1
    simpa [RecreateGoesThrough, RebuildGoesThrough, reconciles, extentRead, afterAcquire,
      EnchantedEngine.emit] using hgo
  · rw [hnew, List.countP_append, countP_inRecreate _ d hd inRecreate_not_recreateCall]
    simp [List.countP_cons, Event.isRecreateCall]
  · rw [hnew, List.countP_append, countP_inRecreate _ d hd inRecreate_not_recordCall]
    simp [List.countP_cons, Event.isRecordCall]
  · rw [hnew, List.countP_append, countP_inRecreate _ d hd inRecreate_not_submit]
    simp [List.countP_cons, Event.isSubmit]
  · intro e he
    rw [hnew] at he
    simp only [List.mem_append, List.mem_cons, List.mem_singleton, List.not_mem_nil,
      or_false] at he
    rcases he with (h | h | h) | h
    · subst h; rfl
    · subst h; rfl
    · subst h; rfl
    · exact inRecreate_target e (hd e h)
  · rw [heq, hf]
    simp [afterAcquire, EnchantedEngine.emit]

theorem recordGoesThrough_afterAcquire (env : Env) (s : EnchantedEngine) (c : EgeSwapChain)
    (imageIndex cb : Nat) (chain : EgeSwapChain) (pipeline : EgePipeline)
    (layout : PipelineLayout) :
    RecordGoesThrough env (afterAcquire env s c) imageIndex cb chain pipeline layout ↔
      RecordGoesThrough env s imageIndex cb chain pipeline layout := by
  simp [RecordGoesThrough, afterAcquire, EnchantedEngine.emit]

/-- With a usable acquire status, `drawFrame` records and then, if the recording returned,
submits. -/
theorem drawFrame_proceeds (env : Env) (fuel : Nat) (s : EnchantedEngine)
    (chain : EgeSwapChain) (hc : s.egeSwapChain = some chain)
    (ha : (env.acquire s.nAcquire).1 = VK_SUCCESS ∨
      (env.acquire s.nAcquire).1 = VK_SUBOPTIMAL_KHR) :
    drawFrame env fuel s =
      andThen (recordCommandBuffer env (env.acquire s.nAcquire).2 (afterAcquire env s chain))
        (submitAndReact env fuel chain (env.acquire s.nAcquire).2) := by
  have h1 : (env.acquire s.nAcquire).1 ≠ VK_ERROR_OUT_OF_DATE_KHR := by
    rcases ha with h | h <;> rw [h] <;> decide
  have h2 : ¬ ((env.acquire s.nAcquire).1 ≠ VK_SUCCESS ∧
      (env.acquire s.nAcquire).1 ≠ VK_SUBOPTIMAL_KHR) := by
    rcases ha with h | h <;> simp [h]
  unfold drawFrame
  simp only [hc, h1, h2, if_false]
  rfl

/-- With a usable acquire status and a recording that goes through, `drawFrame` is the
submit step on the state the recording left. -/
theorem drawFrame_submits (env : Env) (fuel : Nat) (s : EnchantedEngine) (cb : Nat)
    (chain : EgeSwapChain) (pipeline : EgePipeline) (layout : PipelineLayout)
    (ha : (env.acquire s.nAcquire).1 = VK_SUCCESS ∨
      (env.acquire s.nAcquire).1 = VK_SUBOPTIMAL_KHR)
    (hr : RecordGoesThrough env s (env.acquire s.nAcquire).2 cb chain pipeline layout) :
    drawFrame env fuel s =
      submitAndReact env fuel chain (env.acquire s.nAcquire).2
        (afterRecord (afterAcquire env s chain) (env.acquire s.nAcquire).2 cb chain pipeline
          layout) := by
  rw [drawFrame_proceeds env fuel s chain hr.2.1 ha,
    recordCommandBuffer_ok env _ _ cb chain pipeline layout
      ((recordGoesThrough_afterAcquire env s chain _ cb chain pipeline layout).mpr hr)]
  rfl

theorem submitted_trace (env : Env) (s : EnchantedEngine) (cb : Nat) (chain : EgeSwapChain)
    (pipeline : EgePipeline) (layout : PipelineLayout) :
    (submitted env s cb chain pipeline layout).trace =
      s.trace ++ frameEvents env s cb chain pipeline layout := by
  simp [submitted, afterSubmit, afterRecord, afterAcquire, EnchantedEngine.emit, frameEvents]

theorem frameEvents_counts (env : Env) (s : EnchantedEngine) (cb : Nat) (chain : EgeSwapChain)
    (pipeline : EgePipeline) (layout : PipelineLayout) :
    (frameEvents env s cb chain pipeline layout).countP Event.isRecreateCall = 0 ∧
      (frameEvents env s cb chain pipeline layout).countP Event.isSubmit = 1 ∧
      (frameEvents env s cb chain pipeline layout).countP Event.isRecordCall = 1 := by
  simp [frameEvents, renderPassCommands, drawInstance, List.range, List.range.loop,
    List.countP_cons, Event.isRecreateCall, Event.isSubmit, Event.isRecordCall]

/-- What `drawFrame` does after a submit that was reached: the three-way test, then the
fatal test. -/
theorem drawFrame_after_submit (env : Env) (fuel : Nat) (s : EnchantedEngine) (cb : Nat)
    (chain : EgeSwapChain) (pipeline : EgePipeline) (layout : PipelineLayout)
    (ha : (env.acquire s.nAcquire).1 = VK_SUCCESS ∨
      (env.acquire s.nAcquire).1 = VK_SUBOPTIMAL_KHR)
    (hr : RecordGoesThrough env s (env.acquire s.nAcquire).2 cb chain pipeline layout) :
    drawFrame env fuel s =
      if env.submit s.nSubmit = VK_ERROR_OUT_OF_DATE_KHR ∨
          env.submit s.nSubmit = VK_SUBOPTIMAL_KHR ∨ s.framebufferResized = true then
        recreateSwapChain env fuel (afterReset (submitted env s cb chain pipeline layout))
      else if env.submit s.nSubmit ≠ VK_SUCCESS then
        (submitted env s cb chain pipeline layout, .threw "failed to present swap chain image!")
      else (submitted env s cb chain pipeline layout, .returned) := by
  rw [drawFrame_submits env fuel s cb chain pipeline layout ha hr]
  have hcb : (afterRecord (afterAcquire env s chain) (env.acquire s.nAcquire).2 cb chain
      pipeline layout).commandBuffers[(env.acquire s.nAcquire).2]? = some cb := by
    simpa [afterRecord, afterAcquire, EnchantedEngine.emit] using hr.1
  unfold submitAndReact
  simp only [hcb]
  rfl

/-- The events of a frame whose submit is followed by a recreation: the frame, the reset
of the resize flag, the entry into `recreateSwapChain`, then events below it. -/
theorem drawFrame_recreating_trace (env : Env) (fuel : Nat) (s : EnchantedEngine) (cb : Nat)
    (chain : EgeSwapChain) (pipeline : EgePipeline) (layout : PipelineLayout)
    (ha : (env.acquire s.nAcquire).1 = VK_SUCCESS ∨
      (env.acquire s.nAcquire).1 = VK_SUBOPTIMAL_KHR)
    (hr : RecordGoesThrough env s (env.acquire s.nAcquire).2 cb chain pipeline layout)
    (hgo : env.submit s.nSubmit = VK_ERROR_OUT_OF_DATE_KHR ∨
      env.submit s.nSubmit = VK_SUBOPTIMAL_KHR ∨ s.framebufferResized = true) :
    drawFrame env fuel s =
        recreateSwapChain env fuel (afterReset (submitted env s cb chain pipeline layout)) ∧
      ∃ d, newEvents s (drawFrame env fuel s).1 =
          frameEvents env s cb chain pipeline layout
            ++ [.resetWindowResizedFlag, .call .recreateSwapChain] ++ d ∧
        ∀ e ∈ d, Event.inRecreate e = true := by
  have heq := drawFrame_after_submit env fuel s cb chain pipeline layout ha hr
  rw [if_pos hgo] at heq
  refine ⟨heq, ?_⟩
  obtain ⟨_, _, d, ht, hd⟩ :=
    recreateSwapChain_grows env fuel (afterReset (submitted env s cb chain pipeline layout))
  refine ⟨d, ?_, hd⟩
  apply newEvents_append
  rw [heq, ht]
  simp [afterReset, EnchantedEngine.emit, submitted_trace]

/-- C2. In a `drawFrame` call with acquire status success or suboptimal whose recording
goes through, so that the submit is reached, and whose submit status `S` is success,
stale or suboptimal: `recreateSwapChain` is entered once if `S` is stale, `S` is
suboptimal or the window reports a resize, and not at all otherwise.  When it is
entered, that is after the one submit of the frame and after the resize flag was reset
(the recreation starts with the flag cleared), and this holds in particular for a resize
with a successful present.  When `S` is success and the window was not resized,
`drawFrame` returns with the post-submit state. -/
theorem C2_recreate_after_submit_iff (env : Env) (fuel : Nat) (s : EnchantedEngine) (cb : Nat)
    (chain : EgeSwapChain) (pipeline : EgePipeline) (layout : PipelineLayout)
    (ha : (env.acquire s.nAcquire).1 = VK_SUCCESS ∨
      (env.acquire s.nAcquire).1 = VK_SUBOPTIMAL_KHR)
    (hr : RecordGoesThrough env s (env.acquire s.nAcquire).2 cb chain pipeline layout)
    (hS : env.submit s.nSubmit = VK_SUCCESS ∨ env.submit s.nSubmit = VK_ERROR_OUT_OF_DATE_KHR ∨
      env.submit s.nSubmit = VK_SUBOPTIMAL_KHR) :
    ((newEvents s (drawFrame env fuel s).1).countP Event.isRecreateCall = 1 ↔
        (env.submit s.nSubmit = VK_ERROR_OUT_OF_DATE_KHR ∨
          env.submit s.nSubmit = VK_SUBOPTIMAL_KHR ∨ s.framebufferResized = true)) ∧
      (newEvents s (drawFrame env fuel s).1).countP Event.isRecreateCall ≤ 1 ∧
      (newEvents s (drawFrame env fuel s).1).countP Event.isSubmit = 1 ∧
      ((env.submit s.nSubmit = VK_ERROR_OUT_OF_DATE_KHR ∨
          env.submit s.nSubmit = VK_SUBOPTIMAL_KHR ∨ s.framebufferResized = true) →
        drawFrame env fuel s =
            recreateSwapChain env fuel (afterReset (submitted env s cb chain pipeline layout)) ∧
          (afterReset (submitted env s cb chain pipeline layout)).framebufferResized = false ∧
          ∃ d, newEvents s (drawFrame env fuel s).1 =
              frameEvents env s cb chain pipeline layout
                ++ [.resetWindowResizedFlag, .call .recreateSwapChain] ++ d ∧
            ∀ e ∈ d, Event.inRecreate e = true) ∧
      (env.submit s.nSubmit = VK_SUCCESS → s.framebufferResized = true →
        (newEvents s (drawFrame env fuel s).1).countP Event.isRecreateCall = 1) ∧
      (env.submit s.nSubmit = VK_SUCCESS → s.framebufferResized = false →
        drawFrame env fuel s = (submitted env s cb chain pipeline layout, .returned) ∧
          (newEvents s (drawFrame env fuel s).1).countP Event.isRecreateCall = 0) := by
  obtain ⟨c1, c2, _⟩ := frameEvents_counts env s cb chain pipeline layout
  have hyes : (env.submit s.nSubmit = VK_ERROR_OUT_OF_DATE_KHR ∨
      env.submit s.nSubmit = VK_SUBOPTIMAL_KHR ∨ s.framebufferResized = true) →
      (newEvents s (drawFrame env fuel s).1).countP Event.isRecreateCall = 1 ∧
        (newEvents s (drawFrame env fuel s).1).countP Event.isSubmit = 1 := by
    intro hgo
    obtain ⟨_, d, hnew, hd⟩ :=
      drawFrame_recreating_trace env fuel s cb chain pipeline layout ha hr hgo
    rw [hnew]
    simp only [List.countP_append, c1, c2, countP_inRecreate _ d hd inRecreate_not_recreateCall,
      countP_inRecreate _ d hd inRecreate_not_submit]
    simp [List.countP_cons, Event.isRecreateCall, Event.isSubmit]
  have hno : ¬ (env.submit s.nSubmit = VK_ERROR_OUT_OF_DATE_KHR ∨
      env.submit s.nSubmit = VK_SUBOPTIMAL_KHR ∨ s.framebufferResized = true) →
      drawFrame env fuel s = (submitted env s cb chain pipeline layout, .returned) ∧
        (newEvents s (drawFrame env fuel s).1).countP Event.isRecreateCall = 0 ∧
        (newEvents s (drawFrame env fuel s).1).countP Event.isSubmit = 1 := by
    intro hgo
    have hsucc : env.submit s.nSubmit = VK_SUCCESS := by
      rcases hS with h | h | h
      · exact h
      · exact absurd (Or.inl h) hgo
      · exact absurd (Or.inr (Or.inl h)) hgo
    have heq := drawFrame_after_submit env fuel s cb chain pipeline layout ha hr
    rw [if_neg hgo, if_neg (by simp [hsucc])] at heq
    have hnew : newEvents s (drawFrame env fuel s).1 =
        frameEvents env s cb chain pipeline layout := by
      apply newEvents_append
      rw [heq, submitted_trace]
    exact ⟨heq, by rw [hnew, c1], by rw [hnew, c2]⟩
  refine ⟨?_, ?_, ?_, ?_, ?_, ?_⟩
  · constructor
    · intro h1
      by_contra hgo
      rw [(hno hgo).2.1] at h1
      exact absurd h1 (by decide)
    · exact fun hgo => (hyes hgo).1
  · by_cases hgo : env.submit s.nSubmit = VK_ERROR_OUT_OF_DATE_KHR ∨
        env.submit s.nSubmit = VK_SUBOPTIMAL_KHR ∨ s.framebufferResized = true
    · rw [(hyes hgo).1]
    · rw [(hno hgo).2.1]
      exact Nat.zero_le _
  · by_cases hgo : env.submit s.nSubmit = VK_ERROR_OUT_OF_DATE_KHR ∨
        env.submit s.nSubmit = VK_SUBOPTIMAL_KHR ∨ s.framebufferResized = true
    · exact (hyes hgo).2
    · exact (hno hgo).2.2
  · intro hgo
    obtain ⟨h1, h2⟩ := drawFrame_recreating_trace env fuel s cb chain pipeline layout ha hr hgo
    exact ⟨h1, rfl, h2⟩
  · intro _ hres
    exact (hyes (Or.inr (Or.inr hres))).1
  · intro hsucc hres
    have hgo : ¬ (env.submit s.nSubmit = VK_ERROR_OUT_OF_DATE_KHR ∨
        env.submit s.nSubmit = VK_SUBOPTIMAL_KHR ∨ s.framebufferResized = true) := by
      rw [hsucc, hres]
      decide
    exact ⟨(hno hgo).1, (hno hgo).2.1⟩

/-! ## The run loop -/

theorem recordCommandBuffer_trace (env : Env) (imageIndex : Nat) (s : EnchantedEngine) :
    ∃ d, (recordCommandBuffer env imageIndex s).1.trace =
      s.trace ++ Event.call (.recordCommandBuffer imageIndex) :: d := by
  unfold recordCommandBuffer
  dsimp only
  split
  · exact ⟨[], by simp [EnchantedEngine.emit]⟩
  · split
    · exact ⟨_, by simp [EnchantedEngine.emit]; rfl⟩
    · split
      · split
        · exact ⟨_, by simp [EnchantedEngine.emit]; rfl⟩
        · exact ⟨_, by simp [EnchantedEngine.emit]; rfl⟩
      · exact ⟨_, by simp [EnchantedEngine.emit]; rfl⟩

theorem submitAndReact_trace (env : Env) (fuel : Nat) (chain : EgeSwapChain)
    (imageIndex : Nat) (t : EnchantedEngine) :
    ∃ d, (submitAndReact env fuel chain imageIndex t).1.trace = t.trace ++ d := by
  unfold submitAndReact
  split
  · exact ⟨[], by simp⟩
  · dsimp only
    split
    · obtain ⟨_, _, d, ht, _⟩ := recreateSwapChain_grows env fuel
        ({ ({ t.emit [.submitCommandBuffers chain.id _ imageIndex (env.submit t.nSubmit)] with
              nSubmit := t.nSubmit + 1 }).emit [.resetWindowResizedFlag] with
            framebufferResized := false })
      exact ⟨_, by rw [ht]; simp [EnchantedEngine.emit]; rfl⟩
    · split
      · exact ⟨_, by simp [EnchantedEngine.emit]; rfl⟩
      · exact ⟨_, by simp [EnchantedEngine.emit]; rfl⟩

/-- C4. A fatal acquire status (neither success, suboptimal nor stale) makes `drawFrame`
throw right after the acquire, its only events being its entry and the acquire, so
without recording, submitting or recreating; a turn of the run loop in which this
happens ends the loop and `run` with the same throw, the device-idle wait after the
loop not being reached.  With acquire status success or suboptimal `drawFrame` enters
`recordCommandBuffer` with the index the acquire returned and, when the recording
goes through, submits the command buffer of that index. -/
theorem C4_fatal_acquire_propagates (env : Env) (fuel turns : Nat) (s : EnchantedEngine)
    (chain : EgeSwapChain) (hc : s.egeSwapChain = some chain) :
    (((env.acquire s.nAcquire).1 ≠ VK_SUCCESS ∧ (env.acquire s.nAcquire).1 ≠ VK_SUBOPTIMAL_KHR ∧
        (env.acquire s.nAcquire).1 ≠ VK_ERROR_OUT_OF_DATE_KHR) →
      (drawFrame env fuel s =
          (afterAcquire env s chain, .threw "failed to acquire swap chain image!") ∧
        newEvents s (drawFrame env fuel s).1 =
          [.call .drawFrame,
            .acquireNextImage chain.id (env.acquire s.nAcquire).1 (env.acquire s.nAcquire).2]) ∧
      (env.shouldClose s.nClose = false →
        runLoop env fuel (turns + 1) s =
            (afterAcquire env (afterPoll env s) chain,
              .threw "failed to acquire swap chain image!") ∧
          newEvents s (runLoop env fuel (turns + 1) s).1 =
            [.shouldClose false, .glfwPollEvents, .call .drawFrame,
              .acquireNextImage chain.id (env.acquire s.nAcquire).1
                (env.acquire s.nAcquire).2] ∧
          (run env fuel (turns + 1) s).2 = .threw "failed to acquire swap chain image!" ∧
          newEvents s (run env fuel (turns + 1) s).1 =
            [.call .run, .shouldClose false, .glfwPollEvents, .call .drawFrame,
              .acquireNextImage chain.id (env.acquire s.nAcquire).1
                (env.acquire s.nAcquire).2])) ∧
    (((env.acquire s.nAcquire).1 = VK_SUCCESS ∨ (env.acquire s.nAcquire).1 = VK_SUBOPTIMAL_KHR) →
      drawFrame env fuel s =
          andThen (recordCommandBuffer env (env.acquire s.nAcquire).2 (afterAcquire env s chain))
            (submitAndReact env fuel chain (env.acquire s.nAcquire).2) ∧
        [.call .drawFrame,
            .acquireNextImage chain.id (env.acquire s.nAcquire).1 (env.acquire s.nAcquire).2,
            .call (.recordCommandBuffer (env.acquire s.nAcquire).2)]
          <+: newEvents s (drawFrame env fuel s).1 ∧
        ∀ cb pipeline layout,
          RecordGoesThrough env s (env.acquire s.nAcquire).2 cb chain pipeline layout →
            frameEvents env s cb chain pipeline layout <+: newEvents s (drawFrame env fuel s).1) := by
  have hfatal : ∀ r : EnchantedEngine, r.egeSwapChain = some chain →
      ((env.acquire r.nAcquire).1 ≠ VK_SUCCESS ∧ (env.acquire r.nAcquire).1 ≠ VK_SUBOPTIMAL_KHR ∧
        (env.acquire r.nAcquire).1 ≠ VK_ERROR_OUT_OF_DATE_KHR) →
      drawFrame env fuel r =
        (afterAcquire env r chain, .threw "failed to acquire swap chain image!") := by
    intro r hr ⟨h1, h2, h3⟩
    simp [drawFrame, hr, h1, h2, h3, afterAcquire]
  constructor
  · intro hf
    refine ⟨⟨hfatal s hc hf, ?_⟩, ?_⟩
    · apply newEvents_append
      rw [hfatal s hc hf]
      simp [afterAcquire, EnchantedEngine.emit]
    · intro hopen
      have hloop : ∀ r : EnchantedEngine, r.egeSwapChain = some chain →
          r.nAcquire = s.nAcquire → env.shouldClose r.nClose = false →
          runLoop env fuel (turns + 1) r =
            (afterAcquire env (afterPoll env r) chain,
              .threw "failed to acquire swap chain image!") := by
        intro r hr hn ho
        have hd := hfatal (afterPoll env r)
          (by simpa [afterPoll, EnchantedEngine.pump, EnchantedEngine.emit] using hr)
          (by simpa [afterPoll, EnchantedEngine.pump, EnchantedEngine.emit, hn] using hf)
        have hstep : runLoop env fuel (turns + 1) r =
            andThen (drawFrame env fuel (afterPoll env r)) (runLoop env fuel turns) := by
          simp [runLoop, ho, afterPoll]
        rw [hstep, hd]
        rfl
      refine ⟨hloop s hc rfl hopen, ?_, ?_, ?_⟩
      · apply newEvents_append
        rw [hloop s hc rfl hopen]
        simp [afterAcquire, afterPoll, EnchantedEngine.pump, EnchantedEngine.emit, hopen]
      · unfold run
        rw [hloop (s.emit [.call .run]) (by simpa [EnchantedEngine.emit] using hc) rfl
          (by simpa [EnchantedEngine.emit] using hopen)]
      · apply newEvents_append
        unfold run
        rw [hloop (s.emit [.call .run]) (by simpa [EnchantedEngine.emit] using hc) rfl
          (by simpa [EnchantedEngine.emit] using hopen)]
        simp [afterAcquire, afterPoll, EnchantedEngine.pump, EnchantedEngine.emit, hopen]
  · intro ha
    have heq := drawFrame_proceeds env fuel s chain hc ha
    refine ⟨heq, ?_, ?_⟩
    · obtain ⟨d, hd⟩ := recordCommandBuffer_trace env (env.acquire s.nAcquire).2
        (afterAcquire env s chain)
      have hext : ∃ d', (drawFrame env fuel s).1.trace =
          (recordCommandBuffer env (env.acquire s.nAcquire).2 (afterAcquire env s chain)).1.trace
            ++ d' := by
        rw [heq]
        unfold andThen
        split
        · exact submitAndReact_trace env fuel chain _ _
        · exact ⟨[], by simp⟩
      obtain ⟨d', hd'⟩ := hext
      refine ⟨d ++ d', ?_⟩
      symm
      apply newEvents_append
      rw [hd', hd]
      simp [afterAcquire, EnchantedEngine.emit]
    · intro cb pipeline layout hr
      have h := drawFrame_after_submit env fuel s cb chain pipeline layout ha hr
      by_cases hgo : env.submit s.nSubmit = VK_ERROR_OUT_OF_DATE_KHR ∨
          env.submit s.nSubmit = VK_SUBOPTIMAL_KHR ∨ s.framebufferResized = true
      · obtain ⟨_, d, hnew, _⟩ :=
          drawFrame_recreating_trace env fuel s cb chain pipeline layout ha hr hgo
        exact ⟨[.resetWindowResizedFlag, .call .recreateSwapChain] ++ d, by
          rw [hnew, List.append_assoc]⟩
      · rw [if_neg hgo] at h
        refine ⟨[], ?_⟩
        symm
        apply newEvents_append
        rw [h]
        split <;> simp [submitted_trace]

/-! ## Invariants of the states a running engine passes through -/

theorem andThen_returned (r : EnchantedEngine × Outcome)
    (k : EnchantedEngine → EnchantedEngine × Outcome) (h : (andThen r k).2 = .returned) :
    r.2 = .returned ∧ andThen r k = k r.1 := by
  unfold andThen at h ⊢
  split at h
  · rename_i heq
    simp [heq]
  · rename_i hne
    exact absurd h (hne)

theorem frameTracks_append (s s' : EnchantedEngine) (d : List Event)
    (h : FrameTracks s) (hf : s'.frame = s.frame) (ht : s'.trace = s.trace ++ d)
    (hd : d.countP Event.isRecordCall = 0) : FrameTracks s' := by
  unfold FrameTracks recordCalls at *
  rw [hf, ht, List.countP_append, hd, h]
  simp

theorem frameTracks_recreate (env : Env) (fuel : Nat) (s : EnchantedEngine)
    (h : FrameTracks s) : FrameTracks (recreateSwapChain env fuel s).1 := by
  obtain ⟨hf, _, d, ht, hd⟩ := recreateSwapChain_grows env fuel s
  refine frameTracks_append s _ _ h hf ht ?_
  rw [List.countP_cons, countP_inRecreate _ d hd inRecreate_not_recordCall]
  rfl

theorem slotsMatch_recreate (env : Env) (fuel : Nat) (s : EnchantedEngine)
    (hs : s.egeSwapChain.isSome = true)
    (h : (recreateSwapChain env fuel s).2 = .returned) :
    SlotsMatch (recreateSwapChain env fuel s).1 := by
  obtain ⟨k, choice, layout, hk, hgo⟩ := recreateSwapChain_returned env fuel s h
  obtain ⟨_, h2, h3, _, _⟩ := recreateSwapChain_ok env fuel s k choice layout hk hgo
  refine ⟨_, h2, ?_⟩
  rw [h3]
  by_cases hr : reconciles s choice.images = true
  · rw [if_pos hr]
    simp [rebuiltChain, EgeSwapChain.imageCount]
  · rw [if_neg hr]
    have hr' : reconciles s choice.images = false := by simpa using hr
    have : choice.images = s.commandBuffers.length := by
      simpa [reconciles, hs] using hr'
    simp [rebuiltChain, EgeSwapChain.imageCount, this]

theorem createCommandBuffers_returned (env : Env) (s : EnchantedEngine)
    (h : (createCommandBuffers env s).2 = .returned) :
    ∃ chain, s.egeSwapChain = some chain ∧
      (createCommandBuffers env s).1.egeSwapChain = some chain ∧
      (createCommandBuffers env s).1.commandBuffers.length = chain.imageCount := by
  cases hc : s.egeSwapChain with
  | none => simp [createCommandBuffers, hc] at h
  | some chain =>
    by_cases ha : env.alloc s.nAlloc = VK_SUCCESS
    · exact ⟨chain, rfl, by simp [createCommandBuffers, hc, ha, EnchantedEngine.emit],
        by simp [createCommandBuffers, hc, ha, EnchantedEngine.emit]⟩
    · simp [createCommandBuffers, hc, ha] at h

theorem createPipelineLayout_returned (env : Env) (s : EnchantedEngine)
    (h : (createPipelineLayout env s).2 = .returned) :
    LayoutAsCreated (createPipelineLayout env s).1 ∧
      (createPipelineLayout env s).1.frame = s.frame ∧
      (createPipelineLayout env s).1.trace = s.trace ++
        [.call .createPipelineLayout, .vkCreatePipelineLayout ⟨0, 0, [preparedRange]⟩ VK_SUCCESS] := by
  unfold createPipelineLayout at h ⊢
  dsimp only at h ⊢
  split at h
  · simp at h
  · rename_i hl
    have hl' : env.layout s.nLayout = VK_SUCCESS := by simpa using hl
    simp [hl', LayoutAsCreated, preparedRange, EnchantedEngine.emit]

/-- The constructor, when it returns, leaves matching slots, a frame counter of zero with
no recording made, and the layout as created. -/
theorem construct_returned (env : Env) (fuel : Nat) (h : (construct env fuel).2 = .returned) :
    SlotsMatch (construct env fuel).1 ∧ FrameTracks (construct env fuel).1 ∧
      LayoutAsCreated (construct env fuel).1 := by
  have h' := h
  unfold construct at h'
  obtain ⟨h3, e3⟩ := andThen_returned _ _ h'
  obtain ⟨h2, e2⟩ := andThen_returned _ _ h3
  obtain ⟨_, e1⟩ := andThen_returned _ _ h2
  have e : construct env fuel = createCommandBuffers env (recreateSwapChain env fuel
      (createPipelineLayout env (loadModels EnchantedEngine.fresh).1).1).1 := by
    unfold construct
    rw [e3, e2, e1]
  rw [e1] at h2
  rw [e] at h ⊢
  obtain ⟨l1, l2, l3⟩ := createPipelineLayout_returned env _ h2
  obtain ⟨chain, _, c2, c3⟩ := createCommandBuffers_returned env _ h
  obtain ⟨g1, g2, d, g3, g4⟩ := createCommandBuffers_grows env
    (recreateSwapChain env fuel
      (createPipelineLayout env (loadModels EnchantedEngine.fresh).1).1).1
  obtain ⟨_, r2, _⟩ := recreateSwapChain_grows env fuel
    (createPipelineLayout env (loadModels EnchantedEngine.fresh).1).1
  refine ⟨⟨chain, c2, c3⟩, ?_, ?_⟩
  · refine frameTracks_append _ _ d (frameTracks_recreate env fuel _ ?_) g1 g3
      (countP_inRecreate _ d g4 inRecreate_not_recordCall)
    unfold FrameTracks recordCalls
    rw [l2, l3]
    simp [loadModels, EnchantedEngine.fresh, EnchantedEngine.emit, List.countP_cons,
      Event.isRecordCall]
  · obtain ⟨layout, m1, m2, m3⟩ := l1
    exact ⟨layout, by rw [g2, r2, m1], m2, m3⟩

theorem drawFrame_stale (env : Env) (fuel : Nat) (s : EnchantedEngine) (chain : EgeSwapChain)
    (hc : s.egeSwapChain = some chain)
    (hs : (env.acquire s.nAcquire).1 = VK_ERROR_OUT_OF_DATE_KHR) :
    drawFrame env fuel s = recreateSwapChain env fuel (afterAcquire env s chain) := by
  simp [drawFrame, hc, hs, afterAcquire]

theorem drawFrame_fatal (env : Env) (fuel : Nat) (s : EnchantedEngine) (chain : EgeSwapChain)
    (hc : s.egeSwapChain = some chain)
    (h1 : (env.acquire s.nAcquire).1 ≠ VK_SUCCESS)
    (h2 : (env.acquire s.nAcquire).1 ≠ VK_SUBOPTIMAL_KHR)
    (h3 : (env.acquire s.nAcquire).1 ≠ VK_ERROR_OUT_OF_DATE_KHR) :
    drawFrame env fuel s =
      (afterAcquire env s chain, .threw "failed to acquire swap chain image!") := by
  simp [drawFrame, hc, h1, h2, h3, afterAcquire]

theorem frameTracks_submitted (env : Env) (s : EnchantedEngine) (cb : Nat)
    (chain : EgeSwapChain) (pipeline : EgePipeline) (layout : PipelineLayout)
    (h : FrameTracks s) : FrameTracks (submitted env s cb chain pipeline layout) := by
  have hc := (frameEvents_counts env s cb chain pipeline layout).2.2
  unfold FrameTracks recordCalls at *
  rw [submitted_trace, List.countP_append, hc]
  have hf : (submitted env s cb chain pipeline layout).frame = (s.frame + 1) % 10000 := by
    simp [submitted, afterSubmit, afterRecord, afterAcquire, EnchantedEngine.emit]
  rw [hf, h]
  push_cast
  omega

theorem sound_recreate (env : Env) (fuel : Nat) (s : EnchantedEngine)
    (h1 : s.egeSwapChain.isSome = true) (h2 : FrameTracks s) (h3 : LayoutAsCreated s)
    (h : (recreateSwapChain env fuel s).2 = .returned) :
    Sound (recreateSwapChain env fuel s).1 := by
  refine ⟨slotsMatch_recreate env fuel s h1 h, frameTracks_recreate env fuel s h2, ?_⟩
  obtain ⟨layout, m1, m2, m3⟩ := h3
  exact ⟨layout, by rw [(recreateSwapChain_grows env fuel s).2.1, m1], m2, m3⟩

theorem sound_drawFrame (env : Env) (fuel : Nat) (s : EnchantedEngine) (hs : Sound s)
    (h : (drawFrame env fuel s).2 = .returned) : Sound (drawFrame env fuel s).1 := by
  obtain ⟨⟨chain, hc, hlen⟩, hft, hl⟩ := hs
  by_cases hstale : (env.acquire s.nAcquire).1 = VK_ERROR_OUT_OF_DATE_KHR
  · rw [drawFrame_stale env fuel s chain hc hstale] at h ⊢
    refine sound_recreate env fuel _ (by simp [afterAcquire, EnchantedEngine.emit, hc]) ?_ ?_ h
    · exact frameTracks_append s _
        [.call .drawFrame,
          .acquireNextImage chain.id (env.acquire s.nAcquire).1 (env.acquire s.nAcquire).2]
        hft rfl (by simp [afterAcquire, EnchantedEngine.emit])
        (by simp [List.countP_cons, Event.isRecordCall])
    · simpa [LayoutAsCreated, afterAcquire, EnchantedEngine.emit] using hl
  · by_cases ha : (env.acquire s.nAcquire).1 = VK_SUCCESS ∨
        (env.acquire s.nAcquire).1 = VK_SUBOPTIMAL_KHR
    · have hp := drawFrame_proceeds env fuel s chain hc ha
      have h' := h
      rw [hp] at h'
      obtain ⟨hrec, _⟩ := andThen_returned _ _ h'
      obtain ⟨cb, chain', pipeline, layout, hgo⟩ := recordCommandBuffer_returned env _ _ hrec
      have hgo' := (recordGoesThrough_afterAcquire env s chain _ cb chain' pipeline layout).mp hgo
      have hcc : chain' = chain := by
        have := hgo'.2.1
        rw [hc] at this
        exact (Option.some.inj this).symm
      subst hcc
      have heq := drawFrame_after_submit env fuel s cb chain' pipeline layout ha hgo'
      have hsub : Sound (submitted env s cb chain' pipeline layout) := by
        refine ⟨⟨chain', ?_, ?_⟩, frameTracks_submitted env s cb chain' pipeline layout hft, ?_⟩
        · simpa [submitted, afterSubmit, afterRecord, afterAcquire, EnchantedEngine.emit] using hc
        · simpa [submitted, afterSubmit, afterRecord, afterAcquire, EnchantedEngine.emit] using hlen
        · simpa [LayoutAsCreated, submitted, afterSubmit, afterRecord, afterAcquire,
            EnchantedEngine.emit] using hl
      by_cases hre : env.submit s.nSubmit = VK_ERROR_OUT_OF_DATE_KHR ∨
          env.submit s.nSubmit = VK_SUBOPTIMAL_KHR ∨ s.framebufferResized = true
      · rw [if_pos hre] at heq
        rw [heq] at h ⊢
        obtain ⟨⟨c, hc1, _⟩, hft1, hl1⟩ := hsub
        refine sound_recreate env fuel _ (by simp [afterReset, EnchantedEngine.emit, hc1]) ?_ ?_ h
        · exact frameTracks_append _ _ [.resetWindowResizedFlag] hft1 rfl
            (by simp [afterReset, EnchantedEngine.emit])
            (by simp [List.countP_cons, Event.isRecordCall])
        · simpa [LayoutAsCreated, afterReset, EnchantedEngine.emit] using hl1
      · rw [if_neg hre] at heq
        by_cases hok : env.submit s.nSubmit = VK_SUCCESS
        · rw [if_neg (by simp [hok])] at heq
          rw [heq]
          exact hsub
        · rw [if_pos hok] at heq
          rw [heq] at h
          simp at h
    · have h1 : (env.acquire s.nAcquire).1 ≠ VK_SUCCESS := fun e => ha (Or.inl e)
      have h2 : (env.acquire s.nAcquire).1 ≠ VK_SUBOPTIMAL_KHR := fun e => ha (Or.inr e)
      rw [drawFrame_fatal env fuel s chain hc h1 h2 hstale] at h
      simp at h

theorem sound_afterPoll (env : Env) (s : EnchantedEngine) (hs : Sound s) :
    Sound (afterPoll env s) := by
  obtain ⟨⟨chain, hc, hlen⟩, hft, hl⟩ := hs
  refine ⟨⟨chain, ?_, ?_⟩, ?_, ?_⟩
  · simpa [afterPoll, EnchantedEngine.pump, EnchantedEngine.emit] using hc
  · simpa [afterPoll, EnchantedEngine.pump, EnchantedEngine.emit] using hlen
  · exact frameTracks_append s _ [.shouldClose (env.shouldClose s.nClose), .glfwPollEvents]
      hft rfl (by simp [afterPoll, EnchantedEngine.pump, EnchantedEngine.emit])
      (by simp [List.countP_cons, Event.isRecordCall])
  · simpa [LayoutAsCreated, afterPoll, EnchantedEngine.pump, EnchantedEngine.emit] using hl

theorem sound_enterRun (s : EnchantedEngine) (hs : Sound s) :
    Sound (s.emit [.call .run]) := by
  obtain ⟨⟨chain, hc, hlen⟩, hft, hl⟩ := hs
  refine ⟨⟨chain, ?_, ?_⟩, ?_, ?_⟩
  · simpa [EnchantedEngine.emit] using hc
  · simpa [EnchantedEngine.emit] using hlen
  · exact frameTracks_append s _ [.call .run] hft rfl (by simp [EnchantedEngine.emit])
      (by simp [List.countP_cons, Event.isRecordCall])
  · simpa [LayoutAsCreated, EnchantedEngine.emit] using hl

/-- Every state a running engine passes through is sound. -/
theorem reachable_sound (env : Env) (s : EnchantedEngine) (h : Reachable env s) : Sound s := by
  induction h with
  | construct fuel hret => exact construct_returned env fuel hret
  | recreateSwapChain fuel s _ hret ih =>
    obtain ⟨⟨chain, hc, _⟩, hft, hl⟩ := ih
    exact sound_recreate env fuel s (by simp [hc]) hft hl hret
  | drawFrame fuel s _ hret ih => exact sound_drawFrame env fuel s ih hret
  | poll s _ ih => exact sound_afterPoll env s ih
  | run s _ ih => exact sound_enterRun s ih

/-! ## Slots, stall and event order of a recreation -/

theorem stallEvents_filter (env : Env) (p : Event → Bool)
    (h1 : ∀ e, p (.getExtent e) = false) (h2 : p .glfwWaitEvents = false) (k : Nat) :
    ∀ n, (stallEvents env n k).filter p = [] := by
  induction k with
  | zero => intro n; rfl
  | succ k ih =>
    intro n
    simp [stallEvents, List.filter_cons, h1, h2, ih]

theorem stallEvents_waits (env : Env) (k : Nat) :
    ∀ n, (stallEvents env n k).countP Event.isWaitEvents = k ∧
      (stallEvents env n k).countP Event.isGetExtent = k := by
  induction k with
  | zero => intro n; simp [stallEvents]
  | succ k ih =>
    intro n
    obtain ⟨a, b⟩ := ih (n + 1)
    simp [stallEvents, List.countP_cons, Event.isWaitEvents, Event.isGetExtent, a, b]

theorem recreateEvents_filter (env : Env) (s : EnchantedEngine) (k images layout : Nat)
    (p : Event → Bool) (h1 : ∀ e, p (.getExtent e) = false) (h2 : p .glfwWaitEvents = false) :
    (recreateEvents env s k images layout).filter p =
      [Event.call .recreateSwapChain].filter p
        ++ (rebuildEvents s (extentRead env s k) images layout).filter p := by
  simp only [recreateEvents, List.filter_append, stallEvents_filter env p h1 h2,
    List.append_nil]
  congr 1
  simp [List.filter_cons, h1]

/-- C5. In every state a running engine passes through (the one the constructor leaves
when it completes, and every state a returning `recreateSwapChain` or `drawFrame`
leaves) the number of command buffers equals the image count of the swap chain,
whatever image counts the presentation engine chooses.  A returning `recreateSwapChain`
frees all slots and allocates as many as the new chain has images when that count
differs from the current number of slots, and makes no free or allocation call and
leaves the slots as they are otherwise. -/
theorem C5_slots_match_image_count (env : Env) (s : EnchantedEngine) (h : Reachable env s) :
    (∃ chain, s.egeSwapChain = some chain ∧ s.commandBuffers.length = chain.imageCount) ∧
      (∀ fuel, (recreateSwapChain env fuel s).2 = .returned →
        ∃ chain, (recreateSwapChain env fuel s).1.egeSwapChain = some chain ∧
          (recreateSwapChain env fuel s).1.commandBuffers.length = chain.imageCount ∧
          (chain.imageCount ≠ s.commandBuffers.length →
            (recreateSwapChain env fuel s).1.commandBuffers =
                (List.range chain.imageCount).map (fun i => s.nHandle + 1 + i) ∧
              (newEvents s (recreateSwapChain env fuel s).1).filter Event.isSlotCall =
                [.vkFreeCommandBuffers s.commandBuffers,
                  .vkAllocateCommandBuffers chain.imageCount VK_SUCCESS]) ∧
          (chain.imageCount = s.commandBuffers.length →
            (recreateSwapChain env fuel s).1.commandBuffers = s.commandBuffers ∧
              (newEvents s (recreateSwapChain env fuel s).1).filter Event.isSlotCall = [])) ∧
      (∀ fuel, (drawFrame env fuel s).2 = .returned →
        ∃ chain, (drawFrame env fuel s).1.egeSwapChain = some chain ∧
          (drawFrame env fuel s).1.commandBuffers.length = chain.imageCount) := by
  have hs := reachable_sound env s h
  refine ⟨hs.1, ?_, fun fuel hret => (sound_drawFrame env fuel s hs hret).1⟩
  intro fuel hret
  obtain ⟨old, hold, _⟩ := hs.1
  obtain ⟨k, choice, layout, hk, hgo⟩ := recreateSwapChain_returned env fuel s hret
  obtain ⟨_, h2, h3, _, h5⟩ := recreateSwapChain_ok env fuel s k choice layout hk hgo
  obtain ⟨c, hc1, hc2⟩ := slotsMatch_recreate env fuel s (by simp [hold]) hret
  have hcc : c = rebuiltChain s (extentRead env s k) choice := by
    rw [hc1] at h2
    exact Option.some.inj h2
  have himg : c.imageCount = choice.images := by
    rw [hcc]
    rfl
  have hnew := newEvents_append s _ _ h5
  have hfil := recreateEvents_filter env s k choice.images layout.handle Event.isSlotCall
    (fun _ => rfl) rfl
  refine ⟨c, hc1, hc2, ?_, ?_⟩
  · intro hne
    rw [himg] at hne
    have hr : reconciles s choice.images = true := by simp [reconciles, hold, hne]
    refine ⟨by rw [h3, if_pos hr, himg], ?_⟩
    rw [hnew, hfil, himg]
    simp [rebuildEvents, reconcileEvents, hr, List.filter_cons, Event.isSlotCall]
  · intro heq
    rw [himg] at heq
    have hr : reconciles s choice.images = false := by simp [reconciles, hold, heq]
    refine ⟨by rw [h3]; simp [hr], ?_⟩
    rw [hnew, hfil]
    simp [rebuildEvents, reconcileEvents, hr, List.filter_cons, Event.isSlotCall]

/-- The first two events of every rebuild, and the chain it installs when the
construction succeeds. -/
theorem rebuild_head (env : Env) (s : EnchantedEngine) (extent : VkExtent2D) :
    (newEvents s (rebuild env s extent).1).take 2 =
        [.vkDeviceWaitIdle,
          .newSwapChain s.nChain extent (s.egeSwapChain.map (fun c => c.id))
            (env.chain s.nChain).isSome] ∧
      ∀ choice, env.chain s.nChain = some choice →
        (rebuild env s extent).1.egeSwapChain = some (rebuiltChain s extent choice) := by
  cases hc : env.chain s.nChain with
  | none => simp [rebuild, hc, newEvents, EnchantedEngine.emit]
  | some choice =>
    cases hsc : s.egeSwapChain <;> cases hl : s.pipelineLayout <;>
      cases hp : env.pipeline s.nPipeline <;>
      by_cases hn : choice.images = s.commandBuffers.length <;>
      by_cases ha : env.alloc s.nAlloc = VK_SUCCESS <;>
      simp [rebuild, hc, hsc, hl, hp, hn, ha, newEvents, createPipeline, createCommandBuffers,
        freeCommandBuffers, andThen, EnchantedEngine.emit, rebuiltChain,
        EgeSwapChain.imageCount]

/-- With `k` degenerate reads followed by a usable one and a bound of at least `k`,
`recreateSwapChain` is `k` stalled turns followed by the rebuild on the usable read. -/
theorem recreateSwapChain_exits (env : Env) (fuel : Nat) (s : EnchantedEngine) (k : Nat)
    (hk : k ≤ fuel) (hdeg : ∀ j, j < k → degenerate (extentRead env s j))
    (huse : ¬ degenerate (extentRead env s k)) :
    recreateSwapChain env fuel s =
      rebuild env (afterStall env k (afterFirstRead env s)) (extentRead env s k) := by
  obtain ⟨k', hk', hall, hcase⟩ := recreateSwapChain_spec env fuel s
  have hkk : k' = k := by
    rcases Nat.lt_trichotomy k' k with hlt | heq | hgt
    · rcases hcase with ⟨_, h2, _⟩ | ⟨h1, _⟩
      · omega
      · exact absurd (hdeg k' hlt) h1
    · exact heq
    · exact absurd (hall k hgt) huse
  subst hkk
  rcases hcase with ⟨h1, _, _⟩ | ⟨_, h3⟩
  · exact absurd h1 huse
  · exact h3

theorem afterStall_newEvents (env : Env) (s : EnchantedEngine) (k : Nat) :
    newEvents s (afterStall env k (afterFirstRead env s)) =
      [.call .recreateSwapChain, .getExtent (extentRead env s 0)]
        ++ stallEvents env (s.nExtent + 1) k := by
  apply newEvents_append
  simp [afterStall, afterFirstRead, EnchantedEngine.emit, extentRead]

/-- C6. Let the successive extent reads of a `recreateSwapChain` call start with `k`
degenerate ones (`k` may be zero) followed by a usable one, and let the loop bound of the
model be at least `k`.  Then the call consists of its first read, `k` turns of the stall
loop, each a read followed by one wait for events, and after that the rebuild on read
number `k`: up to there it has made `k + 1` reads and `k` waits and no device-idle wait,
chain construction or pipeline construction; the rebuild starts with the device-idle
wait and the construction of a chain for exactly the extent of read number `k`, which is
the window extent of the installed chain when the construction succeeds.  If every read
is degenerate, the call never gets past the stall: for every bound it uses the bound up
in the loop, waiting once per turn, with no device-idle wait, chain or pipeline. -/
theorem C6_stall_until_usable_extent (env : Env) (fuel : Nat) (s : EnchantedEngine) :
    (∀ k, k ≤ fuel → (∀ j, j < k → degenerate (extentRead env s j)) →
      ¬ degenerate (extentRead env s k) →
      recreateSwapChain env fuel s =
          rebuild env (afterStall env k (afterFirstRead env s)) (extentRead env s k) ∧
        newEvents s (afterStall env k (afterFirstRead env s)) =
          [.call .recreateSwapChain, .getExtent (extentRead env s 0)]
            ++ stallEvents env (s.nExtent + 1) k ∧
        (newEvents s (afterStall env k (afterFirstRead env s))).countP Event.isGetExtent = k + 1 ∧
        (newEvents s (afterStall env k (afterFirstRead env s))).countP Event.isWaitEvents = k ∧
        (newEvents s (afterStall env k (afterFirstRead env s))).filter Event.isPastStall = [] ∧
        (newEvents (afterStall env k (afterFirstRead env s))
            (recreateSwapChain env fuel s).1).take 2 =
          [.vkDeviceWaitIdle,
            .newSwapChain s.nChain (extentRead env s k) (s.egeSwapChain.map (fun c => c.id))
              (env.chain s.nChain).isSome] ∧
        ∀ choice, env.chain s.nChain = some choice →
          ∃ chain, (recreateSwapChain env fuel s).1.egeSwapChain = some chain ∧
            chain.windowExtent = extentRead env s k) ∧
    ((∀ j, degenerate (extentRead env s j)) →
      recreateSwapChain env fuel s = (afterStall env fuel (afterFirstRead env s), .stalled) ∧
        (newEvents s (recreateSwapChain env fuel s).1).countP Event.isWaitEvents = fuel ∧
        (newEvents s (recreateSwapChain env fuel s).1).filter Event.isPastStall = []) := by
  have hcounts : ∀ k, (newEvents s (afterStall env k (afterFirstRead env s))).countP
        Event.isGetExtent = k + 1 ∧
      (newEvents s (afterStall env k (afterFirstRead env s))).countP Event.isWaitEvents = k ∧
      (newEvents s (afterStall env k (afterFirstRead env s))).filter Event.isPastStall = [] := by
    intro k
    rw [afterStall_newEvents]
    obtain ⟨a, b⟩ := stallEvents_waits env k (s.nExtent + 1)
    refine ⟨?_, ?_, ?_⟩
    · simp [List.countP_append, List.countP_cons, Event.isGetExtent, b]
    · simp [List.countP_append, List.countP_cons, Event.isWaitEvents, a]
    · rw [List.filter_append, stallEvents_filter env Event.isPastStall (fun _ => rfl) rfl]
      rfl
  constructor
  · intro k hk hdeg huse
    have heq := recreateSwapChain_exits env fuel s k hk hdeg huse
    obtain ⟨c1, c2, c3⟩ := hcounts k
    obtain ⟨r1, r2⟩ := rebuild_head env (afterStall env k (afterFirstRead env s))
      (extentRead env s k)
    refine ⟨heq, afterStall_newEvents env s k, c1, c2, c3, ?_, ?_⟩
    · rw [heq, r1]
      simp [afterStall, afterFirstRead, EnchantedEngine.emit]
    · intro choice hc
      refine ⟨_, by rw [heq]; exact r2 choice (by simpa [afterStall, afterFirstRead,
        EnchantedEngine.emit] using hc), rfl⟩
  · intro hall
    have heq := recreateSwapChain_stalls env fuel s hall
    obtain ⟨_, c2, c3⟩ := hcounts fuel
    rw [heq]
    exact ⟨rfl, c2, c3⟩

/-- C9. The events of a `recreateSwapChain` call that returns are, in this order: its
entry and first extent read; the turns of the stall loop; one device-idle wait; the
construction of the new chain, with the retiring chain as predecessor when there is one
and without predecessor otherwise; the free and reallocation of the command buffers
when there was a chain and the image count differs from the slot count, and nothing
otherwise; one entry into `createPipeline`, with the construction of a pipeline against
the render pass of the new chain as the last event.  So there is exactly one
device-idle wait, before the one chain construction, and exactly one pipeline build, at
the end, whether or not the image count changed. -/
theorem C9_recreate_event_order (env : Env) (fuel : Nat) (s : EnchantedEngine)
    (h : (recreateSwapChain env fuel s).2 = .returned) :
    ∃ k chain layout,
      (recreateSwapChain env fuel s).1.egeSwapChain = some chain ∧
      s.pipelineLayout = some layout ∧
      chain.id = s.nChain ∧
      (chain.previous.isSome = s.egeSwapChain.isSome) ∧
      chain.previous = s.egeSwapChain.map (fun c => c.id) ∧
      newEvents s (recreateSwapChain env fuel s).1 =
        [.call .recreateSwapChain, .getExtent (extentRead env s 0)]
          ++ stallEvents env (s.nExtent + 1) k
          ++ [.vkDeviceWaitIdle,
              .newSwapChain chain.id chain.windowExtent chain.previous true]
          ++ (if s.egeSwapChain.isSome ∧ chain.imageCount ≠ s.commandBuffers.length then
              [.call .freeCommandBuffers, .vkFreeCommandBuffers s.commandBuffers,
                .call .createCommandBuffers,
                .vkAllocateCommandBuffers chain.imageCount VK_SUCCESS]
            else [])
          ++ [.call .createPipeline,
              .newPipeline s.nPipeline chain.getRenderPass layout.handle true] ∧
      (newEvents s (recreateSwapChain env fuel s).1).countP Event.isDeviceWaitIdle = 1 ∧
      (newEvents s (recreateSwapChain env fuel s).1).countP Event.isNewSwapChain = 1 ∧
      (newEvents s (recreateSwapChain env fuel s).1).countP Event.isCreatePipelineCall = 1 ∧
      (newEvents s (recreateSwapChain env fuel s).1).countP Event.isNewPipeline = 1 ∧
      (newEvents s (recreateSwapChain env fuel s).1).getLast? =
        some (.newPipeline s.nPipeline chain.getRenderPass layout.handle true) ∧
      (recreateSwapChain env fuel s).1.egePipeline =
        some ⟨s.nPipeline, chain.getRenderPass, layout.handle⟩ := by
  obtain ⟨k, choice, layout, hk, hgo⟩ := recreateSwapChain_returned env fuel s h
  obtain ⟨_, h2, _, h4, h5⟩ := recreateSwapChain_ok env fuel s k choice layout hk hgo
  have hnew := newEvents_append s _ _ h5
  have hfilter : ∀ p : Event → Bool, (∀ e, p (.getExtent e) = false) →
      p .glfwWaitEvents = false →
      (newEvents s (recreateSwapChain env fuel s).1).countP p =
        ([Event.call .recreateSwapChain].filter p
          ++ (rebuildEvents s (extentRead env s k) choice.images layout.handle).filter p).length := by
    intro p h1 h2
    rw [hnew, List.countP_eq_length_filter, recreateEvents_filter env s k _ _ p h1 h2]
  refine ⟨k, rebuiltChain s (extentRead env s k) choice, layout, h2, hgo.2.2.2.1, rfl, ?_, rfl,
    ?_, ?_, ?_, ?_, ?_, ?_, ?_⟩
  · simp [rebuiltChain]
  · rw [hnew]
    by_cases hr : reconciles s choice.images = true
    · have hr' : s.egeSwapChain.isSome = true ∧ ¬ choice.images = s.commandBuffers.length := by
        simpa [reconciles] using hr
      simp [recreateEvents, rebuildEvents, reconcileEvents, hr, hr', rebuiltChain,
        EgeSwapChain.imageCount, EgeSwapChain.getRenderPass]
    · have hr0 : reconciles s choice.images = false := by simpa using hr
      have hr' : ¬ (s.egeSwapChain.isSome = true ∧ ¬ choice.images = s.commandBuffers.length) := by
        simpa [reconciles] using hr0
      simp only [recreateEvents, rebuildEvents, reconcileEvents, hr0, rebuiltChain,
        EgeSwapChain.imageCount, EgeSwapChain.getRenderPass, ne_eq, hr', if_false]
      simp
  · rw [hfilter _ (fun _ => rfl) rfl]
    by_cases hr : reconciles s choice.images = true <;>
      simp [rebuildEvents, reconcileEvents, hr, List.filter_cons, Event.isDeviceWaitIdle]
  · rw [hfilter _ (fun _ => rfl) rfl]
    by_cases hr : reconciles s choice.images = true <;>
      simp [rebuildEvents, reconcileEvents, hr, List.filter_cons, Event.isNewSwapChain]
  · rw [hfilter _ (fun _ => rfl) rfl]
    by_cases hr : reconciles s choice.images = true <;>
      simp [rebuildEvents, reconcileEvents, hr, List.filter_cons, Event.isCreatePipelineCall]
  · rw [hfilter _ (fun _ => rfl) rfl]
    by_cases hr : reconciles s choice.images = true <;>
      simp [rebuildEvents, reconcileEvents, hr, List.filter_cons, Event.isNewPipeline]
  · have hsplit : recreateEvents env s k choice.images layout.handle =
        ([.call .recreateSwapChain, .getExtent (extentRead env s 0)]
          ++ stallEvents env (s.nExtent + 1) k
          ++ [.vkDeviceWaitIdle,
              .newSwapChain s.nChain (extentRead env s k)
                (s.egeSwapChain.map (fun c => c.id)) true]
          ++ reconcileEvents s choice.images ++ [.call .createPipeline])
        ++ [.newPipeline s.nPipeline s.nChain layout.handle true] := by
      simp [recreateEvents, rebuildEvents]
    rw [hnew, hsplit, List.getLast?_concat]
    rfl
  · rw [h4]
    rfl

/-! ## The recorded commands and the frame counter -/

/-- The events of a recording that goes through, written out. -/
theorem afterRecord_newEvents (s : EnchantedEngine) (imageIndex cb : Nat)
    (chain : EgeSwapChain) (pipeline : EgePipeline) (layout : PipelineLayout) :
    newEvents s (afterRecord s imageIndex cb chain pipeline layout) =
      [ .call (.recordCommandBuffer imageIndex),
        .cmd cb .vkBeginCommandBuffer,
        .cmd cb (.vkCmdBeginRenderPass chain.getRenderPass (chain.getFrameBuffer imageIndex)
          (0, 0) chain.getSwapChainExtent (0, 0, 0, 1) 1 0),
        .cmd cb (.vkCmdSetViewport 0 0 (chain.getSwapChainExtent.width : ℚ)
          (chain.getSwapChainExtent.height : ℚ) 0 1),
        .cmd cb (.vkCmdSetScissor (0, 0) chain.getSwapChainExtent),
        .cmd cb (.pipelineBind pipeline.id),
        .cmd cb .modelBind,
        .cmd cb (.vkCmdPushConstants layout.handle
          (VK_SHADER_STAGE_VERTEX_BIT ||| VK_SHADER_STAGE_FRAGMENT_BIT) 0
          sizeofSimplePushConstantData (pushConstant ((s.frame + 1) % 10000) 0)),
        .cmd cb .modelDraw,
        .cmd cb (.vkCmdPushConstants layout.handle
          (VK_SHADER_STAGE_VERTEX_BIT ||| VK_SHADER_STAGE_FRAGMENT_BIT) 0
          sizeofSimplePushConstantData (pushConstant ((s.frame + 1) % 10000) 1)),
        .cmd cb .modelDraw,
        .cmd cb (.vkCmdPushConstants layout.handle
          (VK_SHADER_STAGE_VERTEX_BIT ||| VK_SHADER_STAGE_FRAGMENT_BIT) 0
          sizeofSimplePushConstantData (pushConstant ((s.frame + 1) % 10000) 2)),
        .cmd cb .modelDraw,
        .cmd cb (.vkCmdPushConstants layout.handle
          (VK_SHADER_STAGE_VERTEX_BIT ||| VK_SHADER_STAGE_FRAGMENT_BIT) 0
          sizeofSimplePushConstantData (pushConstant ((s.frame + 1) % 10000) 3)),
        .cmd cb .modelDraw,
        .cmd cb .vkCmdEndRenderPass,
        .cmd cb .vkEndCommandBuffer ] := by
  apply newEvents_append
  simp [afterRecord, renderPassCommands, drawInstance, List.range, List.range.loop]

/-- C7. A `recordCommandBuffer(imageIndex)` call that returns found the slot of that index
and records into it, and into no other command buffer, exactly: begin recording; begin
render pass on the frame buffer of that index with the chain extent as render area and
clear values colour (0,0,0,1), depth 1, stencil 0; set viewport (0, 0, width, height,
0, 1); set scissor to the full extent; bind pipeline; bind model; four times a
push-constant upload followed by a draw; end render pass; end recording.  So there is
one render pass, there are four draws, and the pipeline bind comes before every draw. -/
theorem C7_recorded_command_sequence (env : Env) (imageIndex : Nat) (s : EnchantedEngine)
    (h : (recordCommandBuffer env imageIndex s).2 = .returned) :
    ∃ cb chain pipeline layout,
      s.commandBuffers[imageIndex]? = some cb ∧ s.egeSwapChain = some chain ∧
      s.egePipeline = some pipeline ∧ s.pipelineLayout = some layout ∧
      newEvents s (recordCommandBuffer env imageIndex s).1 =
        [ .call (.recordCommandBuffer imageIndex),
          .cmd cb .vkBeginCommandBuffer,
          .cmd cb (.vkCmdBeginRenderPass chain.getRenderPass (chain.getFrameBuffer imageIndex)
            (0, 0) chain.getSwapChainExtent (0, 0, 0, 1) 1 0),
          .cmd cb (.vkCmdSetViewport 0 0 (chain.getSwapChainExtent.width : ℚ)
            (chain.getSwapChainExtent.height : ℚ) 0 1),
          .cmd cb (.vkCmdSetScissor (0, 0) chain.getSwapChainExtent),
          .cmd cb (.pipelineBind pipeline.id),
          .cmd cb .modelBind,
          .cmd cb (.vkCmdPushConstants layout.handle
            (VK_SHADER_STAGE_VERTEX_BIT ||| VK_SHADER_STAGE_FRAGMENT_BIT) 0
            sizeofSimplePushConstantData
            (pushConstant (recordCommandBuffer env imageIndex s).1.frame 0)),
          .cmd cb .modelDraw,
          .cmd cb (.vkCmdPushConstants layout.handle
            (VK_SHADER_STAGE_VERTEX_BIT ||| VK_SHADER_STAGE_FRAGMENT_BIT) 0
            sizeofSimplePushConstantData
            (pushConstant (recordCommandBuffer env imageIndex s).1.frame 1)),
          .cmd cb .modelDraw,
          .cmd cb (.vkCmdPushConstants layout.handle
            (VK_SHADER_STAGE_VERTEX_BIT ||| VK_SHADER_STAGE_FRAGMENT_BIT) 0
            sizeofSimplePushConstantData
            (pushConstant (recordCommandBuffer env imageIndex s).1.frame 2)),
          .cmd cb .modelDraw,
          .cmd cb (.vkCmdPushConstants layout.handle
            (VK_SHADER_STAGE_VERTEX_BIT ||| VK_SHADER_STAGE_FRAGMENT_BIT) 0
            sizeofSimplePushConstantData
            (pushConstant (recordCommandBuffer env imageIndex s).1.frame 3)),
          .cmd cb .modelDraw,
          .cmd cb .vkCmdEndRenderPass,
          .cmd cb .vkEndCommandBuffer ] ∧
      (newEvents s (recordCommandBuffer env imageIndex s).1).countP Event.isBeginRenderPass = 1 ∧
      (newEvents s (recordCommandBuffer env imageIndex s).1).countP Event.isDraw = 4 ∧
      (newEvents s (recordCommandBuffer env imageIndex s).1).countP Event.isPush = 4 ∧
      ((newEvents s (recordCommandBuffer env imageIndex s).1).take 5).countP Event.isDraw = 0 ∧
      (newEvents s (recordCommandBuffer env imageIndex s).1)[5]? =
        some (.cmd cb (.pipelineBind pipeline.id)) ∧
      (∀ e ∈ newEvents s (recordCommandBuffer env imageIndex s).1,
        e = .call (.recordCommandBuffer imageIndex) ∨ e.target = some cb) ∧
      (recordCommandBuffer env imageIndex s).1.commandBuffers = s.commandBuffers := by
  obtain ⟨cb, chain, pipeline, layout, hgo⟩ := recordCommandBuffer_returned env s imageIndex h
  have heq := recordCommandBuffer_ok env s imageIndex cb chain pipeline layout hgo
  have hnew := afterRecord_newEvents s imageIndex cb chain pipeline layout
  have hframe : (afterRecord s imageIndex cb chain pipeline layout).frame =
      (s.frame + 1) % 10000 := rfl
  refine ⟨cb, chain, pipeline, layout, hgo.1, hgo.2.1, hgo.2.2.1, hgo.2.2.2.1, ?_, ?_, ?_, ?_,
    ?_, ?_, ?_, ?_⟩
  · rw [heq, hframe]
    exact hnew
  · rw [heq, hnew]
    simp [List.countP_cons, Event.isBeginRenderPass]
  · rw [heq, hnew]
    simp [List.countP_cons, Event.isDraw]
  · rw [heq, hnew]
    simp [List.countP_cons, Event.isPush]
  · rw [heq, hnew]
    simp [List.countP_cons, Event.isDraw]
  · rw [heq, hnew]
    rfl
  · rw [heq, hnew]
    intro e he
    simp only [List.mem_cons, List.mem_singleton, List.not_mem_nil, or_false] at he
    rcases he with h | h | h | h | h | h | h | h | h | h | h | h | h | h | h | h | h <;>
      subst h <;> simp [Event.target]
  · rw [heq]
    rfl

theorem record_frame (env : Env) (idx : Nat) (s : EnchantedEngine) :
    (recordCommandBuffer env idx s).1.frame = (s.frame + 1) % 10000 := by
  unfold recordCommandBuffer
  simp only [EnchantedEngine.emit]
  split
  · rfl
  · split
    · rfl
    · split <;> [split; skip] <;> rfl

theorem record_calls (env : Env) (idx : Nat) (s : EnchantedEngine) :
    recordCalls (recordCommandBuffer env idx s).1 = recordCalls s + 1 := by
  unfold recordCommandBuffer recordCalls
  simp only [EnchantedEngine.emit]
  split
  · simp [Event.isRecordCall]
  · split
    · simp [Event.isRecordCall]
    · split <;> [split; skip] <;>
        simp [Event.isRecordCall, renderPassCommands, drawInstance, List.range, List.range.loop]

theorem frameTracks_afterAcquire (env : Env) (s : EnchantedEngine) (chain : EgeSwapChain)
    (h : FrameTracks s) : FrameTracks (afterAcquire env s chain) :=
  frameTracks_append s _
    [.call .drawFrame,
      .acquireNextImage chain.id (env.acquire s.nAcquire).1 (env.acquire s.nAcquire).2]
    h rfl (by simp [afterAcquire, EnchantedEngine.emit])
    (by simp [List.countP_cons, Event.isRecordCall])

/-! ## Binary32 rounding -/

theorem roundHalfEven_near (a b : Nat) (hb : 0 < b) :
    2 * (roundHalfEven a b * b) ≤ 2 * a + b ∧ 2 * a ≤ 2 * (roundHalfEven a b * b) + b := by
  have h1 : b * (a / b) + a % b = a := Nat.div_add_mod a b
  have h2 : a % b < b := Nat.mod_lt a hb
  have h3 : (a / b + 1) * b = b * (a / b) + b := by ring
  have h4 : a / b * b = b * (a / b) := by ring
  unfold roundHalfEven
  split
  · rw [h4]; omega
  · split
    · rw [h3]; omega
    · split
      · rw [h4]; omega
      · rw [h3]; omega

theorem roundHalfEven_exact (a b : Nat) (hb : 0 < b) (h : b ∣ a) :
    roundHalfEven a b * b = a := by
  have h0 : a % b = 0 := Nat.mod_eq_zero_of_dvd h
  unfold roundHalfEven
  rw [h0]
  simp [hb, Nat.div_mul_cancel h]

theorem bitLength_le (fuel : Nat) : ∀ n k, n < 2 ^ k → bitLength fuel n ≤ k := by
  induction fuel with
  | zero => intro n k _; simp [bitLength]
  | succ f ih =>
    intro n k h
    unfold bitLength
    split
    · exact Nat.zero_le _
    · rename_i hn
      cases k with
      | zero => simp at h; exact absurd h hn
      | succ k =>
        have : n / 2 < 2 ^ k := by
          rw [Nat.div_lt_iff_lt_mul (by decide)]
          rw [pow_succ] at h
          exact h
        exact Nat.succ_le_succ (ih _ _ this)

theorem spacingExp_le (n k : Nat) (h : n < 2 ^ k) : spacingExp n ≤ k - 24 := by
  unfold spacingExp
  have := bitLength_le n n k h
  omega

/-- Rounding to binary32 moves a value below 2^k units by at most half of 2^(k-24) units. -/
theorem roundBinary32_near (num : Int) (den k : Nat) (hden : 0 < den)
    (hk : num.natAbs / den < 2 ^ k) :
    2 * (roundBinary32 num den * den - num) ≤ den * 2 ^ (k - 24) ∧
      -(den * 2 ^ (k - 24) : Int) ≤ 2 * (roundBinary32 num den * den - num) := by
  have hs := spacingExp_le _ _ hk
  have hpow : 2 ^ spacingExp (num.natAbs / den) ≤ 2 ^ (k - 24) :=
    Nat.pow_le_pow_right (by decide) hs
  have hB : den * 2 ^ spacingExp (num.natAbs / den) ≤ den * 2 ^ (k - 24) :=
    Nat.mul_le_mul_left _ hpow
  have hpos : 0 < den * 2 ^ spacingExp (num.natAbs / den) :=
    Nat.mul_pos hden (Nat.pow_pos (by decide))
  obtain ⟨n1, n2⟩ := roundHalfEven_near num.natAbs _ hpos
  have hT : roundHalfEven num.natAbs (den * 2 ^ spacingExp (num.natAbs / den))
        * (den * 2 ^ spacingExp (num.natAbs / den))
      = roundHalfEven num.natAbs (den * 2 ^ spacingExp (num.natAbs / den))
        * 2 ^ spacingExp (num.natAbs / den) * den := by ring
  rw [hT] at n1 n2
  unfold roundBinary32
  simp only []
  generalize roundHalfEven num.natAbs (den * 2 ^ spacingExp (num.natAbs / den))
    * 2 ^ spacingExp (num.natAbs / den) = M at n1 n2 ⊢
  generalize den * 2 ^ spacingExp (num.natAbs / den) = B at n1 n2 hB
  have hcast : ((den * 2 ^ (k - 24) : Nat) : Int) = (den : Int) * 2 ^ (k - 24) := by
    push_cast; ring
  have hMd : ((M * den : Nat) : Int) = (M : Int) * den := by push_cast; ring
  rw [← hcast]
  generalize den * 2 ^ (k - 24) = B' at hB ⊢
  rw [← hMd] at *
  split
  · have : -(M : Int) * den = -((M * den : Nat) : Int) := by push_cast; ring
    rw [this]
    omega
  · omega

/-- A whole number of units that is a multiple of the spacing of its binade is a binary32
value: rounding leaves it as it is. -/
theorem roundBinary32_exact (num : Int) (k : Nat) (hk : num.natAbs < 2 ^ k)
    (hdvd : 2 ^ (k - 24) ∣ num.natAbs) : roundBinary32 num 1 = num := by
  have hs : spacingExp (num.natAbs / 1) ≤ k - 24 :=
    spacingExp_le _ _ (by simpa using hk)
  have hd : 2 ^ spacingExp (num.natAbs / 1) ∣ num.natAbs :=
    Dvd.dvd.trans (Nat.pow_dvd_pow 2 hs) hdvd
  have he := roundHalfEven_exact num.natAbs (1 * 2 ^ spacingExp (num.natAbs / 1))
    (Nat.mul_pos (by decide) (Nat.pow_pos (by decide))) (by simpa using hd)
  unfold roundBinary32
  simp only []
  rw [Nat.one_mul] at he ⊢
  rw [he]
  split <;> omega

/-- The literal `0.5f` is one half exactly. -/
theorem f32lit_half : f32lit 5 10 = 2 ^ 148 := by
  set_option maxRecDepth 100000 in decide

/-- The literal `0.0002f` is 13743895 / 2^36. -/
theorem f32lit_step : f32lit 2 10000 = 13743895 * 2 ^ 113 := by
  set_option maxRecDepth 100000 in decide

/-- The frame counter converts to `float` without rounding. -/
theorem f32ofInt_exact (F : Int) (h0 : 0 ≤ F) (h1 : F ≤ 9999) :
    f32ofInt F = F * 2 ^ 149 := by
  obtain ⟨n, rfl⟩ := Int.eq_ofNat_of_zero_le h0
  have hn : n ≤ 9999 := by exact_mod_cast h1
  have habs : ((n : Int) * (unit149 : Int)).natAbs = n * 2 ^ 149 := by
    rw [Int.natAbs_mul]
    simp [unit149]
  unfold f32ofInt
  rw [roundBinary32_exact _ 173 (by rw [habs]; omega)
    (by rw [habs]; exact Dvd.intro_left n rfl)]
  simp [unit149]

/-- In units, `offsetX F` is within a millionth of `-0.5 + F * 0.0002` for every counter
value: two roundings of at most 2^125 units each and the error of the literal. -/
theorem offsetX_close (F : Int) (h0 : 0 ≤ F) (h1 : F ≤ 9999) :
    (10000 * offsetX F - (2 * F - 5000) * 2 ^ 149).natAbs * 1000000 < 10000 * 2 ^ 149 := by
  obtain ⟨n, rfl⟩ := Int.eq_ofNat_of_zero_le h0
  have hn : n ≤ 9999 := by exact_mod_cast h1
  unfold offsetX f32add f32mul
  rw [f32lit_half, f32lit_step, f32ofInt_exact _ h0 h1]
  have hnum : ((n : Int) * 2 ^ 149 * (13743895 * 2 ^ 113)).natAbs / unit149
      = n * (13743895 * 2 ^ 113) := by
    have : ((n : Int) * 2 ^ 149 * (13743895 * 2 ^ 113)).natAbs
        = n * (13743895 * 2 ^ 113) * unit149 := by
      rw [Int.natAbs_mul, Int.natAbs_mul]
      simp [unit149]
      ring
    rw [this, Nat.mul_div_cancel _ (by unfold unit149; positivity)]
  obtain ⟨p1, p2⟩ := roundBinary32_near ((n : Int) * 2 ^ 149 * (13743895 * 2 ^ 113)) unit149 150
    (by unfold unit149; positivity) (by rw [hnum]; omega)
  generalize roundBinary32 ((n : Int) * 2 ^ 149 * (13743895 * 2 ^ 113)) unit149 = p at p1 p2 ⊢
  simp only [unit149] at p1 p2
  push_cast at p1 p2
  obtain ⟨r1, r2⟩ := roundBinary32_near (-(2 : Int) ^ 148 + p) 1 150 (by decide)
    (by rw [Nat.div_one]; omega)
  generalize roundBinary32 (-(2 : Int) ^ 148 + p) 1 = r at r1 r2 ⊢
  simp only [Nat.cast_one, mul_one, one_mul, Nat.reduceSub] at r1 r2
  set_option maxRecDepth 100000 in omega

theorem pushConstant_offsetX_close (F : Int) (i : Nat) (h0 : 0 ≤ F) (h1 : F ≤ 9999) :
    |(pushConstant F i).offset.1 - (-0.5 + (F : ℚ) * 0.0002)| < 1 / 1000000 := by
  have hD := offsetX_close F h0 h1
  have hDq : |((10000 * offsetX F - (2 * F - 5000) * 2 ^ 149 : Int) : ℚ)| * 1000000
      < 10000 * 2 ^ 149 := by
    rw [← Int.cast_abs, Int.abs_eq_natAbs]
    exact_mod_cast hD
  have hval : (pushConstant F i).offset.1 - (-0.5 + (F : ℚ) * 0.0002)
      = ((10000 * offsetX F - (2 * F - 5000) * 2 ^ 149 : Int) : ℚ) / (10000 * 2 ^ 149) := by
    simp only [pushConstant, f32toRat, unit149]
    push_cast
    field_simp
    ring
  have hsplit : (1 : ℚ) / 1000000 * (10000 * 2 ^ 149) = 10000 * 2 ^ 149 / 1000000 := by ring
  rw [hval, abs_div, abs_of_pos (by positivity : (0 : ℚ) < 10000 * 2 ^ 149),
    div_lt_iff₀ (by positivity), hsplit, lt_div_iff₀ (by norm_num)]
  exact hDq

theorem offsetY_values :
    f32toRat (offsetY 0) = -13421773 / 33554432 ∧ f32toRat (offsetY 1) = -5033165 / 33554432 ∧
      f32toRat (offsetY 2) = 3355443 / 33554432 ∧ f32toRat (offsetY 3) = 11744051 / 33554432 := by
  have h0 : offsetY 0 = -(13421773 * 2 ^ 124) := by
    set_option maxRecDepth 100000 in decide
  have h1 : offsetY 1 = -(5033165 * 2 ^ 124) := by
    set_option maxRecDepth 100000 in decide
  have h2 : offsetY 2 = 3355443 * 2 ^ 124 := by
    set_option maxRecDepth 100000 in decide
  have h3 : offsetY 3 = 11744051 * 2 ^ 124 := by
    set_option maxRecDepth 100000 in decide
  rw [h0, h1, h2, h3]
  refine ⟨?_, ?_, ?_, ?_⟩ <;> norm_num [f32toRat, unit149]

theorem colorZ_values :
    f32toRat (colorZ 0) = 13421773 / 67108864 ∧ f32toRat (colorZ 1) = 13421773 / 33554432 ∧
      f32toRat (colorZ 2) = 5033165 / 8388608 ∧ f32toRat (colorZ 3) = 13421773 / 16777216 := by
  have h0 : colorZ 0 = 13421773 * 2 ^ 123 := by
    set_option maxRecDepth 100000 in decide
  have h1 : colorZ 1 = 13421773 * 2 ^ 124 := by
    set_option maxRecDepth 100000 in decide
  have h2 : colorZ 2 = 5033165 * 2 ^ 126 := by
    set_option maxRecDepth 100000 in decide
  have h3 : colorZ 3 = 13421773 * 2 ^ 125 := by
    set_option maxRecDepth 100000 in decide
  rw [h0, h1, h2, h3]
  refine ⟨?_, ?_, ?_, ?_⟩ <;> norm_num [f32toRat, unit149]

/-- The blocks a returning recording uploads are those of instances 0 to 3 at the
counter value the call set. -/
theorem recordCommandBuffer_pushed (env : Env) (imageIndex : Nat) (s : EnchantedEngine)
    (h : (recordCommandBuffer env imageIndex s).2 = .returned) :
    (newEvents s (recordCommandBuffer env imageIndex s).1).filterMap Event.pushed =
      (List.range 4).map (pushConstant (recordCommandBuffer env imageIndex s).1.frame) := by
  obtain ⟨cb, chain, pipeline, layout, hgo⟩ := recordCommandBuffer_returned env s imageIndex h
  rw [recordCommandBuffer_ok env s imageIndex cb chain pipeline layout hgo,
    afterRecord_newEvents]
  simp [List.filterMap_cons, Event.pushed, List.range, List.range.loop, afterRecord]

/-- C8, as amended.  Wherever `recordCommandBuffer` is entered in a running engine, the
frame counter equals the number of recordings made so far modulo 10000.  In a state
where that holds, the call that is the n-th recording sets the counter to
`F = n mod 10000` before using it, so `0 ≤ F ≤ 9999`, the first recording uses 1 and
9999 is followed by 0; when the call returns, the blocks it uploads are those of
instances 0, 1, 2, 3 at counter value `F`.  The block of instance `i` is the `float`
evaluation of offset `(-0.5f + F * 0.0002f, -0.4f + i * 0.25f)` and colour
`(0, 0, 0.2f + 0.2f * i)`, every literal and operation rounded to binary32.  Its
offset.y and colour do not depend on `F`; they are listed for the four instances, and
for `i = 2` they are 3355443/33554432 and (0, 0, 5033165/8388608).  Every component is
within a millionth of the decimal value of its expression. -/
theorem C8_frame_counter_and_binary32_push_constants (env : Env) (imageIndex : Nat)
    (s : EnchantedEngine) (h : FrameTracks s) :
    recordCalls (recordCommandBuffer env imageIndex s).1 = recordCalls s + 1 ∧
      (recordCommandBuffer env imageIndex s).1.frame = ((recordCalls s + 1 : Nat) : Int) % 10000 ∧
      0 ≤ (recordCommandBuffer env imageIndex s).1.frame ∧
      (recordCommandBuffer env imageIndex s).1.frame ≤ 9999 ∧
      (recordCalls s = 0 → (recordCommandBuffer env imageIndex s).1.frame = 1) ∧
      (s.frame = 9999 → (recordCommandBuffer env imageIndex s).1.frame = 0) ∧
      FrameTracks (recordCommandBuffer env imageIndex s).1 ∧
      ((recordCommandBuffer env imageIndex s).2 = .returned →
        (newEvents s (recordCommandBuffer env imageIndex s).1).filterMap Event.pushed =
          (List.range 4).map (pushConstant (recordCommandBuffer env imageIndex s).1.frame)) ∧
      (∀ (F : Int) (i : Nat), pushConstant F i =
        { offset :=
            (f32toRat (f32add (-(f32lit 5 10)) (f32mul (f32ofInt F) (f32lit 2 10000))),
              f32toRat (f32add (-(f32lit 4 10)) (f32mul (f32ofInt (i : Int)) (f32lit 25 100))))
          color :=
            (0, 0, f32toRat (f32add (f32lit 2 10) (f32mul (f32lit 2 10) (f32ofInt (i : Int))))) }) ∧
      (∀ F : Int, (List.range 4).map (fun i => (pushConstant F i).offset.2) =
        [-13421773 / 33554432, -5033165 / 33554432, 3355443 / 33554432,
          11744051 / 33554432]) ∧
      (∀ F : Int, (List.range 4).map (fun i => (pushConstant F i).color) =
        [(0, 0, 13421773 / 67108864), (0, 0, 13421773 / 33554432),
          (0, 0, 5033165 / 8388608), (0, 0, 13421773 / 16777216)]) ∧
      (∀ F : Int, (pushConstant F 2).offset.2 = 3355443 / 33554432 ∧
        (pushConstant F 2).color = (0, 0, 5033165 / 8388608)) ∧
      (∀ (F : Int) (i : Nat), 0 ≤ F → F ≤ 9999 → i < 4 →
        |(pushConstant F i).offset.1 - (-0.5 + (F : ℚ) * 0.0002)| < 1 / 1000000 ∧
          |(pushConstant F i).offset.2 - (-0.4 + (i : ℚ) * 0.25)| < 1 / 1000000 ∧
          |(pushConstant F i).color.2.2 - (0.2 + 0.2 * (i : ℚ))| < 1 / 1000000) ∧
      (∀ (env' : Env) (t : EnchantedEngine), Reachable env' t →
        FrameTracks t ∧ ∀ chain, FrameTracks (afterAcquire env' t chain)) := by
  have hf := record_frame env imageIndex s
  have hc := record_calls env imageIndex s
  have hs : s.frame = (recordCalls s : Int) % 10000 := h
  have hF : (recordCommandBuffer env imageIndex s).1.frame =
      ((recordCalls s + 1 : Nat) : Int) % 10000 := by
    rw [hf, hs]
    push_cast
    omega
  obtain ⟨y0, y1, y2, y3⟩ := offsetY_values
  obtain ⟨z0, z1, z2, z3⟩ := colorZ_values
  refine ⟨hc, hF, ?_, ?_, ?_, ?_, ?_, recordCommandBuffer_pushed env imageIndex s,
    fun _ _ => rfl, ?_, ?_, ?_, ?_, ?_⟩
  · rw [hF]; omega
  · rw [hF]; omega
  · intro h0
    rw [hF, h0]
    rfl
  · intro h9
    rw [hf, h9]
    rfl
  · unfold FrameTracks
    rw [hc, hF]
  · intro F
    simp [List.range, List.range.loop, pushConstant, y0, y1, y2, y3]
  · intro F
    simp [List.range, List.range.loop, pushConstant, z0, z1, z2, z3]
  · intro F
    simp [pushConstant, y2, z2]
  · intro F i h0 h1 hi
    refine ⟨pushConstant_offsetX_close F i h0 h1, ?_, ?_⟩
    · interval_cases i
      · simp only [pushConstant, y0]; norm_num [abs_lt]
      · simp only [pushConstant, y1]; norm_num [abs_lt]
      · simp only [pushConstant, y2]; norm_num [abs_lt]
      · simp only [pushConstant, y3]; norm_num [abs_lt]
    · interval_cases i
      · simp only [pushConstant, z0]; norm_num [abs_lt]
      · simp only [pushConstant, z1]; norm_num [abs_lt]
      · simp only [pushConstant, z2]; norm_num [abs_lt]
      · simp only [pushConstant, z3]; norm_num [abs_lt]
  · intro env' t ht
    have := (reachable_sound env' t ht).2.1
    exact ⟨this, fun chain => frameTracks_afterAcquire env' t chain this⟩

/-- C10. The layout `createPipelineLayout` creates is created with a push-constant range
count of zero, although a range with the vertex and fragment stages, offset 0 and the
size of `SimplePushConstantData` is prepared and pointed to, so it declares no range;
the engine keeps that layout in every state it passes through.  Every
`recordCommandBuffer` call that returns uploads four blocks of that size at offset 0 for
the vertex and fragment stages through that same layout, and none of these uploads is
covered by a range the layout declares, while the prepared range would cover each. -/
theorem C10_push_constants_outside_declared_ranges (env : Env) (s₀ s : EnchantedEngine)
    (imageIndex : Nat) :
    ((createPipelineLayout env s₀).2 = .returned →
      ∃ layout, (createPipelineLayout env s₀).1.pipelineLayout = some layout ∧
        layout.info.pushConstantRangeCount = 0 ∧
        layout.info.pPushConstantRanges =
          [⟨VK_SHADER_STAGE_VERTEX_BIT ||| VK_SHADER_STAGE_FRAGMENT_BIT, 0,
            sizeofSimplePushConstantData⟩] ∧
        layout.info.declaredRanges = [] ∧
        newEvents s₀ (createPipelineLayout env s₀).1 =
          [.call .createPipelineLayout, .vkCreatePipelineLayout layout.info VK_SUCCESS]) ∧
    (Reachable env s → LayoutAsCreated s ∧ ∀ chain, LayoutAsCreated (afterAcquire env s chain)) ∧
    (LayoutAsCreated s → (recordCommandBuffer env imageIndex s).2 = .returned →
      ∃ cb layout, s.commandBuffers[imageIndex]? = some cb ∧ s.pipelineLayout = some layout ∧
        layout.info.pushConstantRangeCount = 0 ∧ layout.info.declaredRanges = [] ∧
        (newEvents s (recordCommandBuffer env imageIndex s).1).filter Event.isPush =
          (List.range 4).map (fun i => Event.cmd cb (.vkCmdPushConstants layout.handle
            (VK_SHADER_STAGE_VERTEX_BIT ||| VK_SHADER_STAGE_FRAGMENT_BIT) 0
            sizeofSimplePushConstantData
            (pushConstant (recordCommandBuffer env imageIndex s).1.frame i))) ∧
        layout.info.declaredRanges.any (fun r => r.covers
          (VK_SHADER_STAGE_VERTEX_BIT ||| VK_SHADER_STAGE_FRAGMENT_BIT) 0
          sizeofSimplePushConstantData) = false ∧
        layout.info.pPushConstantRanges.any (fun r => r.covers
          (VK_SHADER_STAGE_VERTEX_BIT ||| VK_SHADER_STAGE_FRAGMENT_BIT) 0
          sizeofSimplePushConstantData) = true) := by
  refine ⟨?_, ?_, ?_⟩
  · intro hret
    obtain ⟨⟨layout, l1, l2, l3⟩, _, htrace⟩ := createPipelineLayout_returned env s₀ hret
    have hinfo : layout.info = ⟨0, 0, [preparedRange]⟩ := by
      have hl : (createPipelineLayout env s₀).1.pipelineLayout =
          some ⟨s₀.nLayout + 1, ⟨0, 0, [preparedRange]⟩⟩ := by
        unfold createPipelineLayout at hret ⊢
        dsimp only at hret ⊢
        split at hret
        · simp at hret
        · rename_i hl
          simp [hl, preparedRange, EnchantedEngine.emit]
      rw [l1] at hl
      rw [Option.some.inj hl]
    refine ⟨layout, l1, l2, l3, ?_, ?_⟩
    · simp [VkPipelineLayoutCreateInfo.declaredRanges, l2]
    · rw [hinfo]
      exact newEvents_append _ _ _ htrace
  · intro hr
    have hl := (reachable_sound env s hr).2.2
    refine ⟨hl, fun chain => ?_⟩
    simpa [LayoutAsCreated, afterAcquire, EnchantedEngine.emit] using hl
  · intro hl hret
    obtain ⟨cb, chain, pipeline, layout, hgo⟩ := recordCommandBuffer_returned env s imageIndex hret
    obtain ⟨layout', m1, m2, m3⟩ := hl
    have hll : layout' = layout := by
      have := hgo.2.2.2.1
      rw [m1] at this
      exact Option.some.inj this
    subst hll
    refine ⟨cb, layout', hgo.1, m1, m2, ?_, ?_, ?_, ?_⟩
    · simp [VkPipelineLayoutCreateInfo.declaredRanges, m2]
    · rw [recordCommandBuffer_ok env s imageIndex cb chain pipeline layout' hgo,
        afterRecord_newEvents]
      simp [List.filter_cons, Event.isPush, List.range, List.range.loop, afterRecord]
    · simp [VkPipelineLayoutCreateInfo.declaredRanges, m2]
    · rw [m3]
      decide

/-- Under `staleAcquire` the first frame after construction is skipped: `drawFrame` returns
after one recreation, without a submit, the frame counter still zero. -/
theorem C1_stale_acquire_witness :
    (drawFrame staleAcquire 0 (construct staleAcquire 0).1).2 = .returned ∧
      (newEvents (construct staleAcquire 0).1
        (drawFrame staleAcquire 0 (construct staleAcquire 0).1).1).countP
          Event.isRecreateCall = 1 ∧
      (newEvents (construct staleAcquire 0).1
        (drawFrame staleAcquire 0 (construct staleAcquire 0).1).1).countP Event.isSubmit = 0 ∧
      (drawFrame staleAcquire 0 (construct staleAcquire 0).1).1.frame = 0 :=
  have h := C1_stale_acquire_recreates_and_skips staleAcquire 0 (construct staleAcquire 0).1
    firstChain (by decide) (by decide)
  ⟨by decide, h.2.2.1, h.2.2.2.2.1, by rw [h.2.2.2.2.2.2]; decide⟩

/-- Under `resizing` a frame whose present succeeds recreates once because of the resize
flag alone; under `calm` the frame returns without recreating. -/
theorem C2_resize_alone_witness :
    (newEvents (afterPoll resizing (construct resizing 0).1)
      (drawFrame resizing 0 (afterPoll resizing (construct resizing 0).1)).1).countP
        Event.isRecreateCall = 1 ∧
      (newEvents (construct calm 0).1 (drawFrame calm 0 (construct calm 0).1).1).countP
        Event.isRecreateCall = 0 ∧
      (drawFrame calm 0 (construct calm 0).1).2 = .returned :=
  have h₁ := C2_recreate_after_submit_iff resizing 0
    (afterPoll resizing (construct resizing 0).1) 1 firstChain firstPipeline firstLayout
    (Or.inl (by decide))
    ⟨by decide, by decide, by decide, by decide, by decide, by decide, by decide⟩
    (Or.inl (by decide))
  have h₂ := C2_recreate_after_submit_iff calm 0 (construct calm 0).1 1 firstChain
    firstPipeline firstLayout (Or.inl (by decide))
    ⟨by decide, by decide, by decide, by decide, by decide, by decide, by decide⟩
    (Or.inl (by decide))
  ⟨h₁.2.2.2.2.1 (by decide) (by decide), (h₂.2.2.2.2.2 (by decide) (by decide)).2,
    by rw [(h₂.2.2.2.2.2 (by decide) (by decide)).1]⟩

/-- C3. The state after one poll under `lostSubmitResizing` has the resize flag set, and
the submit of the frame answers `VK_ERROR_DEVICE_LOST`, which is neither success, stale
nor suboptimal: `drawFrame` nevertheless returns, having entered `recreateSwapChain`
once after the submit.  With the same submit status and the flag not set, `drawFrame`
throws and does not recreate. -/
theorem C3_fatal_submit_masked_by_resize :
    (afterPoll lostSubmitResizing (construct lostSubmitResizing 0).1).framebufferResized = true ∧
      lostSubmitResizing.submit 0 ≠ VK_SUCCESS ∧
      lostSubmitResizing.submit 0 ≠ VK_ERROR_OUT_OF_DATE_KHR ∧
      lostSubmitResizing.submit 0 ≠ VK_SUBOPTIMAL_KHR ∧
      (newEvents (afterPoll lostSubmitResizing (construct lostSubmitResizing 0).1)
        (drawFrame lostSubmitResizing 0
          (afterPoll lostSubmitResizing (construct lostSubmitResizing 0).1)).1).countP
            Event.isSubmit = 1 ∧
      (drawFrame lostSubmitResizing 0
        (afterPoll lostSubmitResizing (construct lostSubmitResizing 0).1)).2 = .returned ∧
      (newEvents (afterPoll lostSubmitResizing (construct lostSubmitResizing 0).1)
        (drawFrame lostSubmitResizing 0
          (afterPoll lostSubmitResizing (construct lostSubmitResizing 0).1)).1).countP
            Event.isRecreateCall = 1 ∧
      (drawFrame lostSubmit 0 (afterPoll lostSubmit (construct lostSubmit 0).1)).2 =
        .threw "failed to present swap chain image!" ∧
      (newEvents (afterPoll lostSubmit (construct lostSubmit 0).1)
        (drawFrame lostSubmit 0 (afterPoll lostSubmit (construct lostSubmit 0).1)).1).countP
          Event.isRecreateCall = 0 := by
  decide

/-- Under `lostAcquire` the first frame throws right after the acquire and `run` ends with
that throw; under `calm` the frame records into the slot of index 0 and submits it. -/
theorem C4_fatal_acquire_witness :
    drawFrame lostAcquire 0 (construct lostAcquire 0).1 =
        (afterAcquire lostAcquire (construct lostAcquire 0).1 firstChain,
          .threw "failed to acquire swap chain image!") ∧
      (run lostAcquire 0 3 (construct lostAcquire 0).1).2 =
        .threw "failed to acquire swap chain image!" ∧
      frameEvents calm (construct calm 0).1 1 firstChain firstPipeline firstLayout
        <+: newEvents (construct calm 0).1 (drawFrame calm 0 (construct calm 0).1).1 :=
  have h₁ := (C4_fatal_acquire_propagates lostAcquire 0 2 (construct lostAcquire 0).1
    firstChain (by decide)).1 (by decide)
  have h₂ := (C4_fatal_acquire_propagates calm 0 0 (construct calm 0).1
    firstChain (by decide)).2 (Or.inl (by decide))
  ⟨h₁.1.1, (h₁.2 (by decide)).2.2.1,
    h₂.2.2 1 firstPipeline firstLayout
      ⟨by decide, by decide, by decide, by decide, by decide, by decide, by decide⟩⟩

/-- Under `varying` the first chain has two images and the next ones three and four: the
slots follow, the reallocation for the third chain yielding the handles 3, 4, 5. -/
theorem C5_slots_match_witness :
    (∃ chain, (drawFrame varying 0 (afterPoll varying (construct varying 0).1)).1.egeSwapChain
        = some chain ∧
      (drawFrame varying 0 (afterPoll varying (construct varying 0).1)).1.commandBuffers.length
        = chain.imageCount) ∧
      (recreateSwapChain varying 0
        (drawFrame varying 0 (afterPoll varying (construct varying 0).1)).1).1.commandBuffers
        = [3, 4, 5] :=
  have h := C5_slots_match_image_count varying
    (drawFrame varying 0 (afterPoll varying (construct varying 0).1)).1
    (Reachable.drawFrame 0 _ (Reachable.poll _ (Reachable.construct 0 (by decide)))
      (by decide))
  ⟨h.1, by decide⟩

/-- A window that reads (0,0) and then (640,480): the recreation stalls for one turn and
builds the chain for (640,480). -/
theorem C6_minimised_then_640_by_480_witness :
    extentRead minimised (construct calm 0).1 0 = ⟨0, 0⟩ ∧
      extentRead minimised (construct calm 0).1 1 = ⟨640, 480⟩ ∧
      (∃ chain, (recreateSwapChain minimised 5 (construct calm 0).1).1.egeSwapChain = some chain ∧
        chain.windowExtent = ⟨640, 480⟩) ∧
      (recreateSwapChain minimised 5 (construct calm 0).1).2 = .returned ∧
      newEvents (construct calm 0).1 (recreateSwapChain minimised 5 (construct calm 0).1).1 =
        [.call .recreateSwapChain, .getExtent ⟨0, 0⟩, .getExtent ⟨640, 480⟩, .glfwWaitEvents,
          .vkDeviceWaitIdle, .newSwapChain 1 ⟨640, 480⟩ (some 0) true,
          .call .createPipeline, .newPipeline 1 1 1 true] :=
  have h := (C6_stall_until_usable_extent minimised 5 (construct calm 0).1).1 1 (by decide)
    (by decide) (by decide)
  ⟨by decide, by decide, h.2.2.2.2.2.2 ⟨3, ⟨800, 600⟩⟩ (by decide), by decide, by decide⟩

/-- The first recording under `calm` returns, with one render pass and four draws. -/
theorem C7_recorded_sequence_witness :
    (recordCommandBuffer calm 0 (construct calm 0).1).2 = .returned ∧
      (newEvents (construct calm 0).1
        (recordCommandBuffer calm 0 (construct calm 0).1).1).countP Event.isBeginRenderPass = 1 ∧
      (newEvents (construct calm 0).1
        (recordCommandBuffer calm 0 (construct calm 0).1).1).countP Event.isDraw = 4 :=
  match C7_recorded_command_sequence calm 0 (construct calm 0).1 (by decide) with
  | ⟨_, _, _, _, _, _, _, _, _, h₁, h₂, _⟩ => ⟨by decide, h₁, h₂⟩

/-- C8, the claim as written fails.  In the first recording after construction under
`calm` the counter value is 1, and the block uploaded for instance 2 has offset.y
3355443/33554432, which is not 0.1, and a colour that is not (0, 0, 0.6): it is not the
block of the decimal values. -/
theorem C8_decimal_values_differ :
    (recordCommandBuffer calm 0 (construct calm 0).1).2 = .returned ∧
      (recordCommandBuffer calm 0 (construct calm 0).1).1.frame = 1 ∧
      ((newEvents (construct calm 0).1
        (recordCommandBuffer calm 0 (construct calm 0).1).1).filterMap Event.pushed)[2]? =
          some (pushConstant 1 2) ∧
      (pushConstant 1 2).offset.2 = 3355443 / 33554432 ∧
      (pushConstant 1 2).offset.2 ≠ 0.1 ∧
      (pushConstant 1 2).color ≠ (0, 0, 0.6) ∧
      pushConstant 1 2 ≠
        { offset := (-0.5 + (1 : ℚ) * 0.0002, -0.4 + (2 : ℚ) * 0.25)
          color := (0, 0, 0.2 + 0.2 * (2 : ℚ)) } := by
  have hy := offsetY_values.2.2.1
  have hz := colorZ_values.2.2.1
  have hret : (recordCommandBuffer calm 0 (construct calm 0).1).2 = .returned := by decide
  have hframe : (recordCommandBuffer calm 0 (construct calm 0).1).1.frame = 1 := by decide
  have hyv : (pushConstant 1 2).offset.2 = 3355443 / 33554432 := by
    simp only [pushConstant, hy]
  refine ⟨hret, hframe, ?_, hyv, ?_, ?_, ?_⟩
  · rw [recordCommandBuffer_pushed calm 0 _ hret, hframe]
    rfl
  · rw [hyv]
    norm_num
  · simp only [pushConstant, hz]
    intro hc
    have := congrArg (fun c => c.2.2) hc
    norm_num at this
  · intro hc
    have := congrArg (fun b => b.offset.2) hc
    simp only [hyv] at this
    norm_num at this

/-- The first recording under `calm` uses counter value 1 for its four blocks, whose first
offset.x is within a millionth of -0.4998. -/
theorem C8_first_recording_witness :
    FrameTracks (construct calm 0).1 ∧
      (recordCommandBuffer calm 0 (construct calm 0).1).1.frame = 1 ∧
      (newEvents (construct calm 0).1
        (recordCommandBuffer calm 0 (construct calm 0).1).1).filterMap Event.pushed =
          (List.range 4).map
            (pushConstant (recordCommandBuffer calm 0 (construct calm 0).1).1.frame) ∧
      |(pushConstant 1 0).offset.1 - (-0.5 + ((1 : Int) : ℚ) * 0.0002)| < 1 / 1000000 :=
  have h := C8_frame_counter_and_binary32_push_constants calm 0 (construct calm 0).1
    (by decide)
  ⟨by decide, h.2.2.2.2.1 (by decide), h.2.2.2.2.2.2.2.1 (by decide),
    (h.2.2.2.2.2.2.2.2.2.2.2.2.1 1 0 (by decide) (by decide) (by decide)).1⟩

/-- A recreation under `varying` right after construction returns, its last event being
the pipeline construction against the render pass of the new chain. -/
theorem C9_recreate_order_witness :
    (recreateSwapChain varying 0 (construct varying 0).1).2 = .returned ∧
      ∃ chain layout,
        (recreateSwapChain varying 0 (construct varying 0).1).1.egeSwapChain = some chain ∧
        (construct varying 0).1.pipelineLayout = some layout ∧
        (newEvents (construct varying 0).1
          (recreateSwapChain varying 0 (construct varying 0).1).1).getLast? =
            some (.newPipeline (construct varying 0).1.nPipeline chain.getRenderPass
              layout.handle true) :=
  match C9_recreate_event_order varying 0 (construct varying 0).1 (by decide) with
  | ⟨_, chain, layout, h₁, h₂, _, _, _, _, _, _, _, _, h₃, _⟩ =>
    ⟨by decide, chain, layout, h₁, h₂, h₃⟩

/-- The engine constructed under `calm` holds the layout as created, which declares no
range, and its first recording uploads four blocks. -/
theorem C10_layout_declares_no_range_witness :
    LayoutAsCreated (construct calm 0).1 ∧
      (newEvents (construct calm 0).1
        (recordCommandBuffer calm 0 (construct calm 0).1).1).countP Event.isPush = 4 ∧
      firstLayout.info.declaredRanges = [] :=
  have h := C10_push_constants_outside_declared_ranges calm EnchantedEngine.fresh
    (construct calm 0).1 0
  ⟨(h.2.1 (Reachable.construct 0 (by decide))).1, by decide, by decide⟩

end ege
